import Mathlib

/-!
# Event filters of `pkg/cmd/events/event_filter.go`

A shallow embedding of the event filters (`EventFilters`, `FilterByWarnings`,
`FilterByNamespaces`, `FilterByNames`, `FilterByReasons`, `FilterByUIDs`,
`FilterByComponent`, `FilterByKind`) together with theorems about them.

Go slices of `*corev1.Event` are lists of `Event` values, every `for` loop of
the source is a left fold whose accumulator is the slice `ret`, `continue`
leaves the accumulator unchanged and `append(ret, event)` is `ret ++ [event]`.
A Go `map[schema.GroupKind]bool` is the list of its entries, traversed by
`range` in list order.
-/

namespace Events

/-! ## Data model -/

/-- The fields of `corev1.ObjectReference` read by the filters. -/
structure ObjectReference where
  Kind : String
  Namespace : String
  Name : String
  UID : String
  APIVersion : String
deriving DecidableEq, Repr

/-- The fields of `corev1.Event` read by the filters; `Type_` is the field `Type`. -/
structure Event where
  InvolvedObject : ObjectReference
  Reason : String
  Type_ : String
  ReportingController : String
deriving DecidableEq, Repr

/-- Modelled from the spec: the constant `corev1.EventTypeWarning` of `k8s.io/api/core/v1`,
the fixed warning value of the severity, is declared outside the source tree. -/
def EventTypeWarning : String := "Warning"

/-- The type `schema.GroupVersion`. -/
structure GroupVersion where
  Group : String
  Version : String
deriving DecidableEq, Repr

/-- The type `schema.GroupVersionKind`. -/
structure GroupVersionKind where
  Group : String
  Version : String
  Kind : String
deriving DecidableEq, Repr

/-- The type `schema.GroupKind`, the key type of `FilterByKind.Kinds`. -/
structure GroupKind where
  Group : String
  Kind : String
deriving DecidableEq, Repr

/-- Modelled from the spec: the method `GroupVersion.WithKind` of the imported package
`schema` is not part of the source tree; it adds the kind to the group and version. -/
def GroupVersion.WithKind (gv : GroupVersion) (kind : String) : GroupVersionKind :=
  { Group := gv.Group, Version := gv.Version, Kind := kind }

/-- Modelled from the spec: the method `GroupVersionKind.GroupKind` of the imported
package `schema` is not part of the source tree; it keeps the group and the kind, the
`{group, kind}` the spec derives from a record. -/
def GroupVersionKind.GroupKind (gvk : GroupVersionKind) : GroupKind :=
  { Group := gvk.Group, Kind := gvk.Kind }

/-- Modelled from the spec: `schema.ParseGroupVersion` belongs to the imported package
`k8s.io/apimachinery/pkg/runtime/schema` and is not part of the source tree. The
string is split on `/`: without a `/` the group is empty and the whole string is the
version, with one `/` the group is the text before it, and anything else (the empty
string, `"/"`, more than one `/`) gives the zero `GroupVersion`. The second
component is the error value, `none` for `nil`. -/
def ParseGroupVersion (gv : String) : GroupVersion × Option String :=
  if gv.data = [] ∨ gv = "/" then
    ({ Group := "", Version := "" }, none)
  else
    match gv.data.count '/' with
    | 0 => ({ Group := "", Version := gv }, none)
    | 1 =>
      ({ Group := String.mk (gv.data.takeWhile (fun c => c != '/')),
         Version := String.mk ((gv.data.dropWhile (fun c => c != '/')).drop 1) }, none)
    | _ => ({ Group := "", Version := "" }, some ("unexpected GroupVersion string: " ++ gv))

/-- Modelled from the spec: the type `sets.String` of the imported package
`k8s.io/apimachinery/pkg/util/sets` is not part of the source tree; it is the spec's
pattern set, a set of strings, here the list of its members. -/
abbrev StringSet : Type := List String

/-- Modelled from the spec: the method `sets.String.Has` of the imported package `sets`
is not part of the source tree; it is membership in the pattern set. -/
def StringSet.Has (s : StringSet) (item : String) : Bool :=
  decide (item ∈ s)

/-- The type `map[schema.GroupKind]bool` as the list of its entries. -/
abbrev KindMap : Type := List (GroupKind × Bool)

/-- The index expression `m[key]` of a Go map: the value stored under `key`, and
the zero value `false` when the key is absent. -/
def KindMap.index : KindMap → GroupKind → Bool
  | [], _ => false
  | (k, v) :: rest, key => if k = key then v else KindMap.index rest key

/-- The keys of a map. -/
def KindMap.keys (m : KindMap) : List GroupKind :=
  m.map Prod.fst

/-! ## The filters -/

/-- The interface `EventFilter`: its only method, `FilterEvents`. -/
abbrev EventFilter : Type := List Event → List Event

/-- The type `EventFilters`. -/
abbrev EventFilters : Type := List EventFilter

/-- The method `EventFilters.FilterEvents`: `ret` starts as a copy of `events` and
every filter of the chain replaces it by its own result. -/
def EventFilters.FilterEvents (f : EventFilters) (events : List Event) : List Event :=
  f.foldl (fun ret filter => filter ret) events

/-- The loop body of `FilterByWarnings.FilterEvents`. -/
def FilterByWarnings.step (ret : List Event) (event : Event) : List Event :=
  if event.Type_ ≠ EventTypeWarning then ret
  else ret ++ [event]

/-- The method `FilterByWarnings.FilterEvents`. -/
def FilterByWarnings.FilterEvents (events : List Event) : List Event :=
  events.foldl FilterByWarnings.step []

/-- The type `FilterByNamespaces`. -/
structure FilterByNamespaces where
  Namespaces : StringSet

/-- The loop body of `FilterByNamespaces.FilterEvents`. -/
def FilterByNamespaces.step (f : FilterByNamespaces) (ret : List Event) (event : Event) :
    List Event :=
  let ns := event.InvolvedObject.Namespace
  if f.Namespaces.Has ("-" ++ ns) then ret
  else if f.Namespaces.Has ns then ret ++ [event]
  else ret

/-- The method `FilterByNamespaces.FilterEvents`. -/
def FilterByNamespaces.FilterEvents (f : FilterByNamespaces) (events : List Event) :
    List Event :=
  events.foldl f.step []

/-- The type `FilterByNames`. -/
structure FilterByNames where
  Names : StringSet

/-- The loop body of `FilterByNames.FilterEvents`. -/
def FilterByNames.step (f : FilterByNames) (ret : List Event) (event : Event) : List Event :=
  let name := event.InvolvedObject.Name
  if f.Names.Has ("-" ++ name) then ret
  else if f.Names.Has name then ret ++ [event]
  else ret

/-- The method `FilterByNames.FilterEvents`. -/
def FilterByNames.FilterEvents (f : FilterByNames) (events : List Event) : List Event :=
  events.foldl f.step []

/-- The type `FilterByReasons`. -/
structure FilterByReasons where
  Reasons : StringSet

/-- The loop body of `FilterByReasons.FilterEvents`. -/
def FilterByReasons.step (f : FilterByReasons) (ret : List Event) (event : Event) :
    List Event :=
  let reason := event.Reason
  if f.Reasons.Has ("-" ++ reason) then ret
  else if f.Reasons.Has reason then ret ++ [event]
  else ret

/-- The method `FilterByReasons.FilterEvents`. -/
def FilterByReasons.FilterEvents (f : FilterByReasons) (events : List Event) : List Event :=
  events.foldl f.step []

/-- The type `FilterByUIDs`. -/
structure FilterByUIDs where
  UIDs : StringSet

/-- The loop body of `FilterByUIDs.FilterEvents`. -/
def FilterByUIDs.step (f : FilterByUIDs) (ret : List Event) (event : Event) : List Event :=
  let currUID := event.InvolvedObject.UID
  if f.UIDs.Has ("-" ++ currUID) then ret
  else if f.UIDs.Has currUID then ret ++ [event]
  else ret

/-- The method `FilterByUIDs.FilterEvents`. -/
def FilterByUIDs.FilterEvents (f : FilterByUIDs) (events : List Event) : List Event :=
  events.foldl f.step []

/-- The type `FilterByComponent`. -/
structure FilterByComponent where
  Components : StringSet

/-- The loop body of `FilterByComponent.FilterEvents`. -/
def FilterByComponent.step (f : FilterByComponent) (ret : List Event) (event : Event) :
    List Event :=
  if f.Components.Has ("-" ++ event.ReportingController) then ret
  else if f.Components.Has event.ReportingController then ret ++ [event]
  else ret

/-- The method `FilterByComponent.FilterEvents`. -/
def FilterByComponent.FilterEvents (f : FilterByComponent) (events : List Event) :
    List Event :=
  events.foldl f.step []

/-- The type `FilterByKind`. -/
structure FilterByKind where
  Kinds : KindMap

/-- The group and kind of an event, lines 154-155: the error of `ParseGroupVersion`
is dropped and the returned `GroupVersion` is used as it is. -/
def eventGroupKind (event : Event) : GroupKind :=
  let gv := (ParseGroupVersion event.InvolvedObject.APIVersion).1
  (gv.WithKind event.InvolvedObject.Kind).GroupKind

/-- The first `range` loop of `FilterByKind.FilterEvents` (lines 168-178): the value
of `antiMatched` after the loop over the remaining entries, `false` unless an entry
sets it and breaks. -/
def FilterByKind.antiMatchedLoop (gk antiMatch : GroupKind) : KindMap → Bool
  | [] => false
  | (currKind, _) :: rest =>
    if currKind.Group = "*" ∧ currKind.Kind = antiMatch.Kind then true
    else if currKind.Kind = "-*" ∧ currKind.Group = gk.Group then true
    else FilterByKind.antiMatchedLoop gk antiMatch rest

/-- The second `range` loop of `FilterByKind.FilterEvents` (lines 183-196): the value
of `ret` after the loop over the remaining entries. -/
def FilterByKind.resourceLoop (gk : GroupKind) (event : Event) (ret : List Event) :
    KindMap → List Event
  | [] => ret
  | (currResource, _) :: rest =>
    if currResource.Group = "*" ∧ currResource.Kind = "*" then ret ++ [event]
    else if currResource.Group = "*" ∧ currResource.Kind = gk.Kind then ret ++ [event]
    else if currResource.Kind = "*" ∧ currResource.Group = gk.Group then ret ++ [event]
    else FilterByKind.resourceLoop gk event ret rest

/-- The body of the outer loop of `FilterByKind.FilterEvents` (lines 153-196). -/
def FilterByKind.step (f : FilterByKind) (ret : List Event) (event : Event) : List Event :=
  let gk := eventGroupKind event
  let antiMatch : GroupKind := { Kind := "-" ++ gk.Kind, Group := gk.Group }
  if f.Kinds.index antiMatch then ret
  else
    let ret := if f.Kinds.index gk then ret ++ [event] else ret
    let antiMatched := FilterByKind.antiMatchedLoop gk antiMatch f.Kinds
    if antiMatched then ret
    else FilterByKind.resourceLoop gk event ret f.Kinds

/-- The method `FilterByKind.FilterEvents`. -/
def FilterByKind.FilterEvents (f : FilterByKind) (events : List Event) : List Event :=
  events.foldl f.step []

/-! ## Sample events -/

/-- An event whose involved object has the given API version and kind. -/
def mkKindEvent (apiVersion kind : String) : Event :=
  { InvolvedObject := { Kind := kind, Namespace := "", Name := "", UID := "",
                        APIVersion := apiVersion },
    Reason := "", Type_ := "Normal", ReportingController := "" }

/-- An event all of whose string attributes read by the attribute filters are `v`. -/
def mkAttrEvent (v : String) : Event :=
  { InvolvedObject := { Kind := "Pod", Namespace := v, Name := v, UID := v,
                        APIVersion := "v1" },
    Reason := v, Type_ := "Warning", ReportingController := v }

/-- An event with the given severity, involved namespace and involved name. -/
def mkEvent (severity ns name : String) : Event :=
  { InvolvedObject := { Kind := "Pod", Namespace := ns, Name := name, UID := "",
                        APIVersion := "v1" },
    Reason := "", Type_ := severity, ReportingController := "" }

/-- An event whose involved object has the given namespace, API version and kind. -/
def mkNsKindEvent (ns apiVersion kind : String) : Event :=
  { InvolvedObject := { Kind := kind, Namespace := ns, Name := "", UID := "",
                        APIVersion := apiVersion },
    Reason := "", Type_ := "Normal", ReportingController := "" }

/-! ## Reference definitions taken from the specification -/

/-- The attribute matcher as the specification words it (section 4.1): for the
extractor `attr` and the pattern set `P`, a record is kept when `"-" + v` is not in
`P` and `v` is in `P`, where `v = attr record`; order is kept. It is compared with
the five attribute filters of the source. -/
def AttributeMatcher (attr : Event → String) (P : StringSet) (events : List Event) :
    List Event :=
  events.filter (fun e => decide ("-" ++ attr e ∉ P ∧ attr e ∈ P))

/-- The chain as the specification words it (section 4.4): for `[F1..Fn]` the
function `Fn ∘ ... ∘ F2 ∘ F1`. It is compared with `EventFilters.FilterEvents`. -/
def EventFilters.composition : EventFilters → EventFilter
  | [] => id
  | F :: rest => EventFilters.composition rest ∘ F

/-- Whether a string starts with the reserved exclusion prefix `-`. -/
def hasExclusionPrefix (p : String) : Bool :=
  p.data.head? == some '-'

/-- The text after the exclusion prefix of a pattern, when the pattern has one. -/
def stripExclusionPrefix (p : String) : Option String :=
  match p.data with
  | [] => none
  | c :: rest => if c = '-' then some (String.mk rest) else none

/-- The explicit two-field pattern structure of the specification (section 9). -/
structure IncludeExclude where
  includes : List String
  excludes : List String
deriving DecidableEq, Repr

/-- The two sets read off a prefixed pattern set `P`: `includes` holds the patterns of
`P` that do not start with `-`, `excludes` the values `v` with `"-" + v` in `P`. -/
def IncludeExclude.ofPatternSet (P : StringSet) : IncludeExclude :=
  { includes := P.filter (fun p => !hasExclusionPrefix p),
    excludes := P.filterMap stripExclusionPrefix }

/-- The matcher over the two-field structure: a record is kept when its value is in
`includes` and not in `excludes`. -/
def IncludeExclude.FilterEvents (attr : Event → String) (ie : IncludeExclude)
    (events : List Event) : List Event :=
  events.filter (fun e => decide (attr e ∈ ie.includes ∧ attr e ∉ ie.excludes))

/-- The number `n(e)` of copies of an event `e` of group `g` and kind `k` in the output
of `FilterByKind.FilterEvents`: `0` when `Kinds[{g, "-"+k}]` is true, and otherwise
one for a true `Kinds[{g, k}]` plus one when no key is `{"*", "-"+k}` or `{g, "-*"}`
and some key is `{"*", "*"}`, `{"*", k}` or `{g, "*"}`. It is compared with the loop
of the source. -/
def FilterByKind.multiplicity (f : FilterByKind) (e : Event) : Nat :=
  if f.Kinds.index ⟨(eventGroupKind e).Group, "-" ++ (eventGroupKind e).Kind⟩ = true then 0
  else
    (if f.Kinds.index ⟨(eventGroupKind e).Group, (eventGroupKind e).Kind⟩ = true
      then 1 else 0) +
    (if ((⟨"*", "-" ++ (eventGroupKind e).Kind⟩ : GroupKind) ∉ f.Kinds.keys ∧
          (⟨(eventGroupKind e).Group, "-*"⟩ : GroupKind) ∉ f.Kinds.keys) ∧
        ((⟨"*", "*"⟩ : GroupKind) ∈ f.Kinds.keys ∨
          (⟨"*", (eventGroupKind e).Kind⟩ : GroupKind) ∈ f.Kinds.keys ∨
          (⟨(eventGroupKind e).Group, "*"⟩ : GroupKind) ∈ f.Kinds.keys)
      then 1 else 0)

/-- The implementations of the interface `EventFilter` declared in the source file,
each with its configuration. -/
inductive ConcreteFilter where
  | warnings
  | namespaces (f : FilterByNamespaces)
  | names (f : FilterByNames)
  | reasons (f : FilterByReasons)
  | uids (f : FilterByUIDs)
  | component (f : FilterByComponent)
  | kind (f : FilterByKind)

/-- The method `FilterEvents` of a concrete filter, as the interface dispatches it. -/
def ConcreteFilter.FilterEvents : ConcreteFilter → EventFilter
  | .warnings => FilterByWarnings.FilterEvents
  | .namespaces f => f.FilterEvents
  | .names f => f.FilterEvents
  | .reasons f => f.FilterEvents
  | .uids f => f.FilterEvents
  | .component f => f.FilterEvents
  | .kind f => f.FilterEvents

/-- The number of copies of an event in the output of a concrete filter. -/
def ConcreteFilter.multiplicity : ConcreteFilter → Event → Nat
  | .warnings, e => if e.Type_ = EventTypeWarning then 1 else 0
  | .namespaces f, e =>
    if "-" ++ e.InvolvedObject.Namespace ∉ f.Namespaces ∧
      e.InvolvedObject.Namespace ∈ f.Namespaces then 1 else 0
  | .names f, e =>
    if "-" ++ e.InvolvedObject.Name ∉ f.Names ∧ e.InvolvedObject.Name ∈ f.Names then 1 else 0
  | .reasons f, e =>
    if "-" ++ e.Reason ∉ f.Reasons ∧ e.Reason ∈ f.Reasons then 1 else 0
  | .uids f, e =>
    if "-" ++ e.InvolvedObject.UID ∉ f.UIDs ∧ e.InvolvedObject.UID ∈ f.UIDs then 1 else 0
  | .component f, e =>
    if "-" ++ e.ReportingController ∉ f.Components ∧
      e.ReportingController ∈ f.Components then 1 else 0
  | .kind f, e => f.multiplicity e

/-! ## Loops as concatenations -/

/-- A loop whose body appends a list depending on the current element only
returns the accumulator followed by those lists, in order. -/
theorem foldl_eq_append_flatMap {α : Type} (step : List α → α → List α)
    (emit : α → List α) (h : ∀ ret e, step ret e = ret ++ emit e)
    (events acc : List α) :
    events.foldl step acc = acc ++ events.flatMap emit := by
  induction events generalizing acc with
  | nil => simp
  | cons e rest ih => simp [ih, h, List.append_assoc]

/-- A loop whose body appends the current element under a guard is `List.filter`. -/
theorem foldl_eq_append_filter {α : Type} (step : List α → α → List α)
    (p : α → Bool) (h : ∀ ret e, step ret e = if p e then ret ++ [e] else ret)
    (events acc : List α) :
    events.foldl step acc = acc ++ events.filter p := by
  induction events generalizing acc with
  | nil => simp
  | cons e rest ih =>
    rw [List.foldl_cons, ih, h]
    by_cases hp : p e = true <;> simp [hp, List.filter_cons]

/-! ## The map of `FilterByKind` -/

theorem KindMap.mem_keys_of_index {m : KindMap} {key : GroupKind}
    (h : m.index key = true) : key ∈ m.keys := by
  induction m with
  | nil => simp [KindMap.index] at h
  | cons kv rest ih =>
    obtain ⟨k, v⟩ := kv
    simp only [KindMap.index] at h
    by_cases hk : k = key
    · simp [KindMap.keys, hk]
    · rw [if_neg hk] at h
      have := ih h
      simp only [KindMap.keys, List.map_cons, List.mem_cons] at this ⊢
      exact Or.inr this

theorem KindMap.index_of_not_mem_keys {m : KindMap} {key : GroupKind}
    (h : key ∉ m.keys) : m.index key = false := by
  cases hi : m.index key with
  | false => rfl
  | true => exact absurd (KindMap.mem_keys_of_index hi) h

theorem KindMap.index_of_all_true {m : KindMap} (hall : ∀ kv ∈ m, kv.2 = true)
    (key : GroupKind) : m.index key = true ↔ key ∈ m.keys := by
  refine ⟨KindMap.mem_keys_of_index, ?_⟩
  induction m with
  | nil => simp [KindMap.keys]
  | cons kv rest ih =>
    obtain ⟨k, v⟩ := kv
    intro hmem
    have hv : v = true := hall (k, v) (List.mem_cons_self _ _)
    simp only [KindMap.index]
    by_cases hk : k = key
    · simp [hk, hv]
    · rw [if_neg hk]
      apply ih (fun kv hkv => hall kv (List.mem_cons_of_mem _ hkv))
      simp only [KindMap.keys, List.map_cons, List.mem_cons] at hmem
      rcases hmem with h | h
      · exact absurd h.symm hk
      · exact h

theorem GroupKind.eq_mk_iff (key : GroupKind) (g k : String) :
    key = ⟨g, k⟩ ↔ key.Group = g ∧ key.Kind = k := by
  cases key
  simp

/-- The first `range` loop sets `antiMatched` exactly when the map has the key
`{"*", antiMatch.Kind}` or the key `{gk.Group, "-*"}`. -/
theorem FilterByKind.antiMatchedLoop_eq_true (gk antiMatch : GroupKind) (m : KindMap) :
    FilterByKind.antiMatchedLoop gk antiMatch m = true ↔
      (⟨"*", antiMatch.Kind⟩ : GroupKind) ∈ m.keys ∨ (⟨gk.Group, "-*"⟩ : GroupKind) ∈ m.keys := by
  induction m with
  | nil => simp [FilterByKind.antiMatchedLoop, KindMap.keys]
  | cons kv rest ih =>
    obtain ⟨key, v⟩ := kv
    simp only [FilterByKind.antiMatchedLoop, KindMap.keys, List.map_cons, List.mem_cons]
    simp only [KindMap.keys] at ih
    have e1 : (⟨"*", antiMatch.Kind⟩ : GroupKind) = key ↔
        key.Group = "*" ∧ key.Kind = antiMatch.Kind := by
      rw [eq_comm]; exact GroupKind.eq_mk_iff key _ _
    have e2 : (⟨gk.Group, "-*"⟩ : GroupKind) = key ↔
        key.Kind = "-*" ∧ key.Group = gk.Group := by
      rw [eq_comm, GroupKind.eq_mk_iff]; exact and_comm
    rw [e1, e2]
    split_ifs with h1 h2
    · simp [h1]
    · simp [h2]
    · rw [ih]
      simp only [h1, h2, false_or]

/-- The second `range` loop only appends to `ret`. -/
theorem FilterByKind.resourceLoop_eq_append (gk : GroupKind) (event : Event)
    (ret : List Event) (m : KindMap) :
    FilterByKind.resourceLoop gk event ret m
      = ret ++ FilterByKind.resourceLoop gk event [] m := by
  induction m with
  | nil => simp [FilterByKind.resourceLoop]
  | cons kv rest ih =>
    obtain ⟨key, v⟩ := kv
    simp only [FilterByKind.resourceLoop]
    split_ifs <;> first | rfl | exact ih

/-- The second `range` loop appends the event at most once. -/
theorem FilterByKind.resourceLoop_nil_cases (gk : GroupKind) (event : Event) (m : KindMap) :
    FilterByKind.resourceLoop gk event [] m = [] ∨
      FilterByKind.resourceLoop gk event [] m = [event] := by
  induction m with
  | nil => simp [FilterByKind.resourceLoop]
  | cons kv rest ih =>
    obtain ⟨key, v⟩ := kv
    simp only [FilterByKind.resourceLoop]
    split_ifs <;> first | exact Or.inr rfl | exact ih

/-- The second `range` loop appends the event exactly when the map has one of the
keys `{"*", "*"}`, `{"*", gk.Kind}`, `{gk.Group, "*"}`. -/
theorem FilterByKind.resourceLoop_eq_singleton (gk : GroupKind) (event : Event) (m : KindMap) :
    FilterByKind.resourceLoop gk event [] m = [event] ↔
      (⟨"*", "*"⟩ : GroupKind) ∈ m.keys ∨ (⟨"*", gk.Kind⟩ : GroupKind) ∈ m.keys ∨
        (⟨gk.Group, "*"⟩ : GroupKind) ∈ m.keys := by
  induction m with
  | nil => simp [FilterByKind.resourceLoop, KindMap.keys]
  | cons kv rest ih =>
    obtain ⟨key, v⟩ := kv
    simp only [FilterByKind.resourceLoop, KindMap.keys, List.map_cons, List.mem_cons]
    simp only [KindMap.keys] at ih
    have e1 : (⟨"*", "*"⟩ : GroupKind) = key ↔ key.Group = "*" ∧ key.Kind = "*" := by
      rw [eq_comm]; exact GroupKind.eq_mk_iff key _ _
    have e2 : (⟨"*", gk.Kind⟩ : GroupKind) = key ↔ key.Group = "*" ∧ key.Kind = gk.Kind := by
      rw [eq_comm]; exact GroupKind.eq_mk_iff key _ _
    have e3 : (⟨gk.Group, "*"⟩ : GroupKind) = key ↔ key.Kind = "*" ∧ key.Group = gk.Group := by
      rw [eq_comm, GroupKind.eq_mk_iff]; exact and_comm
    rw [e1, e2, e3]
    split_ifs with h1 h2 h3
    · simp [h1]
    · simp [h2]
    · simp [h3]
    · rw [ih]
      simp only [h1, h2, h3, false_or]

/-! ## One round of the outer loop of `FilterByKind` -/

/-- One round of the outer loop only appends to `ret`. -/
theorem FilterByKind.step_eq_append (f : FilterByKind) (ret : List Event) (event : Event) :
    f.step ret event = ret ++ f.step [] event := by
  unfold FilterByKind.step
  by_cases h1 : f.Kinds.index
      { Kind := "-" ++ (eventGroupKind event).Kind, Group := (eventGroupKind event).Group } = true
  · simp [h1]
  · by_cases h2 : f.Kinds.index (eventGroupKind event) = true
    · by_cases h3 : FilterByKind.antiMatchedLoop (eventGroupKind event)
          { Kind := "-" ++ (eventGroupKind event).Kind, Group := (eventGroupKind event).Group }
          f.Kinds = true
      · simp [h1, h2, h3]
      · simp only [h1, h2, h3, if_true, if_false, Bool.false_eq_true, List.nil_append]
        rw [FilterByKind.resourceLoop_eq_append,
          FilterByKind.resourceLoop_eq_append _ _ [event], List.append_assoc]
    · by_cases h3 : FilterByKind.antiMatchedLoop (eventGroupKind event)
          { Kind := "-" ++ (eventGroupKind event).Kind, Group := (eventGroupKind event).Group }
          f.Kinds = true
      · simp [h1, h2, h3]
      · simp only [h1, h2, h3, if_true, if_false, Bool.false_eq_true]
        rw [FilterByKind.resourceLoop_eq_append]

/-- Everything one round of the outer loop emits is the current event, and it emits
it exactly when the exact anti-match entry is not `true` and either the exact entry
is `true`, or no wildcard anti-match key is present and a wildcard key is. -/
theorem FilterByKind.mem_step_nil (f : FilterByKind) (event x : Event) :
    x ∈ f.step [] event ↔
      x = event ∧
      f.Kinds.index ⟨(eventGroupKind event).Group, "-" ++ (eventGroupKind event).Kind⟩ = false ∧
      (f.Kinds.index (eventGroupKind event) = true ∨
        (((⟨"*", "-" ++ (eventGroupKind event).Kind⟩ : GroupKind) ∉ f.Kinds.keys ∧
          (⟨(eventGroupKind event).Group, "-*"⟩ : GroupKind) ∉ f.Kinds.keys) ∧
         ((⟨"*", "*"⟩ : GroupKind) ∈ f.Kinds.keys ∨
          (⟨"*", (eventGroupKind event).Kind⟩ : GroupKind) ∈ f.Kinds.keys ∨
          (⟨(eventGroupKind event).Group, "*"⟩ : GroupKind) ∈ f.Kinds.keys))) := by
  have hA := FilterByKind.antiMatchedLoop_eq_true (eventGroupKind event)
    { Kind := "-" ++ (eventGroupKind event).Kind, Group := (eventGroupKind event).Group } f.Kinds
  have hR := FilterByKind.resourceLoop_eq_singleton (eventGroupKind event) event f.Kinds
  have hC := FilterByKind.resourceLoop_nil_cases (eventGroupKind event) event f.Kinds
  unfold FilterByKind.step
  by_cases h1 : f.Kinds.index
      { Kind := "-" ++ (eventGroupKind event).Kind, Group := (eventGroupKind event).Group } = true
  · simp [h1]
  · have h1f : f.Kinds.index
        { Kind := "-" ++ (eventGroupKind event).Kind, Group := (eventGroupKind event).Group }
          = false := by simpa using h1
    by_cases h3 : FilterByKind.antiMatchedLoop (eventGroupKind event)
        { Kind := "-" ++ (eventGroupKind event).Kind, Group := (eventGroupKind event).Group }
        f.Kinds = true
    · have hk := hA.mp h3
      by_cases h2 : f.Kinds.index (eventGroupKind event) = true
      · simp [h1f, h2, h3]
      · simp only [h1f, h2, h3, if_true, if_false, Bool.false_eq_true, List.not_mem_nil,
          false_iff, true_and, false_or, not_and]
        intro _ hno
        exact absurd hk (by tauto)
    · have hk : ¬ ((⟨"*", "-" ++ (eventGroupKind event).Kind⟩ : GroupKind) ∈ f.Kinds.keys ∨
          (⟨(eventGroupKind event).Group, "-*"⟩ : GroupKind) ∈ f.Kinds.keys) :=
        fun h => h3 (hA.mpr h)
      have hk2 := not_or.mp hk
      by_cases h2 : f.Kinds.index (eventGroupKind event) = true
      · simp only [h1f, h2, h3, if_true, if_false, Bool.false_eq_true, List.nil_append,
          true_and, true_or, and_true]
        rw [FilterByKind.resourceLoop_eq_append]
        rcases hC with hC | hC <;> simp [hC]
      · simp only [h1f, h2, h3, if_true, if_false, Bool.false_eq_true, true_and, false_or]
        rcases hC with hC | hC
        · have hn := mt hR.mpr (by simp [hC])
          simp only [hC, List.not_mem_nil, false_iff, not_and]
          intro _ _
          exact hn
        · have hy := hR.mp hC
          simp only [hC, List.mem_singleton]
          exact ⟨fun h => ⟨h, hk2, hy⟩, fun h => h.1⟩

/-- The output of `FilterByKind.FilterEvents` is the concatenation of what each round
of the outer loop emits. -/
theorem FilterByKind.FilterEvents_eq_flatMap (f : FilterByKind) (events : List Event) :
    f.FilterEvents events = events.flatMap (fun event => f.step [] event) := by
  unfold FilterByKind.FilterEvents
  rw [foldl_eq_append_flatMap f.step (fun event => f.step [] event)
    (fun ret e => f.step_eq_append ret e)]
  simp

/-- Membership in the output of `FilterByKind.FilterEvents`. -/
theorem FilterByKind.mem_FilterEvents (f : FilterByKind) (events : List Event) (x : Event) :
    x ∈ f.FilterEvents events ↔
      x ∈ events ∧
      f.Kinds.index ⟨(eventGroupKind x).Group, "-" ++ (eventGroupKind x).Kind⟩ = false ∧
      (f.Kinds.index (eventGroupKind x) = true ∨
        (((⟨"*", "-" ++ (eventGroupKind x).Kind⟩ : GroupKind) ∉ f.Kinds.keys ∧
          (⟨(eventGroupKind x).Group, "-*"⟩ : GroupKind) ∉ f.Kinds.keys) ∧
         ((⟨"*", "*"⟩ : GroupKind) ∈ f.Kinds.keys ∨
          (⟨"*", (eventGroupKind x).Kind⟩ : GroupKind) ∈ f.Kinds.keys ∨
          (⟨(eventGroupKind x).Group, "*"⟩ : GroupKind) ∈ f.Kinds.keys))) := by
  rw [FilterByKind.FilterEvents_eq_flatMap, List.mem_flatMap]
  constructor
  · rintro ⟨event, hmem, hx⟩
    obtain ⟨rfl, h⟩ := (FilterByKind.mem_step_nil f event x).mp hx
    exact ⟨hmem, h⟩
  · rintro ⟨hmem, h⟩
    exact ⟨x, hmem, (FilterByKind.mem_step_nil f x x).mpr ⟨rfl, h⟩⟩

/-- The kind of the derived `GroupKind` is the kind of the involved object. -/
theorem eventGroupKind_Kind (event : Event) :
    (eventGroupKind event).Kind = event.InvolvedObject.Kind := rfl

theorem eventGroupKind_eq (event : Event) :
    eventGroupKind event = ⟨(eventGroupKind event).Group, event.InvolvedObject.Kind⟩ := rfl

/-! ## Precedence of the `FilterByKind` rules -/

/-- C1: exact anti-match wins. When `Kinds[{g, "-"+k}]` is true, no event whose parsed
group is `g` and whose kind is `k` occurs in the output of
`FilterByKind.FilterEvents`, whatever else `Kinds` holds and whatever the input. -/
theorem FilterByKind.exact_antimatch_wins (f : FilterByKind) (g k : String)
    (h : f.Kinds.index ⟨g, "-" ++ k⟩ = true) (events : List Event) :
    ∀ e : Event, (eventGroupKind e).Group = g → e.InvolvedObject.Kind = k →
      e ∉ f.FilterEvents events := by
  intro e hg hk hmem
  have h2 := ((FilterByKind.mem_FilterEvents f events e).mp hmem).2.1
  rw [eventGroupKind_Kind, hg, hk, h] at h2
  exact Bool.noConfusion h2

/-- C1, on the patterns `{apps, -Deployment}` and `{apps, Deployment}`: the event
`apps/v1`, `Deployment` is dropped and the output is empty. -/
theorem FilterByKind.exact_antimatch_wins_witness :
    KindMap.index [(⟨"apps", "-Deployment"⟩, true), (⟨"apps", "Deployment"⟩, true)]
        ⟨"apps", "-" ++ "Deployment"⟩ = true ∧
    (∀ e : Event, (eventGroupKind e).Group = "apps" → e.InvolvedObject.Kind = "Deployment" →
      e ∉ FilterByKind.FilterEvents
        { Kinds := [(⟨"apps", "-Deployment"⟩, true), (⟨"apps", "Deployment"⟩, true)] }
        [mkKindEvent "apps/v1" "Deployment"]) ∧
    FilterByKind.FilterEvents
        { Kinds := [(⟨"apps", "-Deployment"⟩, true), (⟨"apps", "Deployment"⟩, true)] }
        [mkKindEvent "apps/v1" "Deployment"] = [] :=
  ⟨by decide,
   FilterByKind.exact_antimatch_wins
     { Kinds := [(⟨"apps", "-Deployment"⟩, true), (⟨"apps", "Deployment"⟩, true)] }
     "apps" "Deployment" (by decide) [mkKindEvent "apps/v1" "Deployment"],
   by decide⟩

/-- C2 fails as stated: with the entries `{*, -Pod}` and `{apps, Pod}` the event
`apps/v1`, `Pod` is of kind `Pod`, the map has an entry with group `*` and kind
`-Pod`, and yet the event is in the output: the exact entry is consulted before the
wildcard anti-match loop. -/
theorem FilterByKind.star_group_antimatch_counterexample :
    (⟨"*", "-" ++ "Pod"⟩ : GroupKind) ∈
        KindMap.keys [(⟨"*", "-Pod"⟩, true), (⟨"apps", "Pod"⟩, true)] ∧
    (mkKindEvent "apps/v1" "Pod").InvolvedObject.Kind = "Pod" ∧
    mkKindEvent "apps/v1" "Pod" ∈
      FilterByKind.FilterEvents { Kinds := [(⟨"*", "-Pod"⟩, true), (⟨"apps", "Pod"⟩, true)] }
        [mkKindEvent "apps/v1" "Pod"] := by
  decide

/-- C2, amended: when `Kinds` has an entry with group `*` and kind `"-"+k`, an event of
kind `k` occurs in the output of `FilterByKind.FilterEvents` exactly when it occurs
in the input, the exact anti-match entry of its group is not true and the exact
inclusion entry `Kinds[{g, k}]` of its group `g` is true; no wildcard inclusion
includes it. -/
theorem FilterByKind.group_wildcard_antimatch_unless_exact (f : FilterByKind) (k : String)
    (h : (⟨"*", "-" ++ k⟩ : GroupKind) ∈ f.Kinds.keys) (events : List Event) (e : Event)
    (hk : e.InvolvedObject.Kind = k) :
    e ∈ f.FilterEvents events ↔
      e ∈ events ∧ f.Kinds.index ⟨(eventGroupKind e).Group, "-" ++ k⟩ = false ∧
        f.Kinds.index ⟨(eventGroupKind e).Group, k⟩ = true := by
  rw [FilterByKind.mem_FilterEvents, eventGroupKind_Kind, hk]
  rw [eventGroupKind_eq e, hk]
  constructor
  · rintro ⟨hmem, hanti, hex | ⟨⟨hno, _⟩, _⟩⟩
    · exact ⟨hmem, hanti, hex⟩
    · exact absurd h hno
  · rintro ⟨hmem, hanti, hex⟩
    exact ⟨hmem, hanti, Or.inl hex⟩

/-- C2, amended, on the entries `{*, -Pod}`, `{apps, Pod}`, `{*, Pod}`: the `apps` event
is kept through its exact entry, the `batch` event is not brought back by `{*, Pod}`. -/
theorem FilterByKind.group_wildcard_antimatch_unless_exact_witness :
    (⟨"*", "-" ++ "Pod"⟩ : GroupKind) ∈
        KindMap.keys [(⟨"*", "-Pod"⟩, true), (⟨"apps", "Pod"⟩, true), (⟨"*", "Pod"⟩, true)] ∧
    (mkKindEvent "batch/v1" "Pod" ∈
        FilterByKind.FilterEvents
          { Kinds := [(⟨"*", "-Pod"⟩, true), (⟨"apps", "Pod"⟩, true), (⟨"*", "Pod"⟩, true)] }
          [mkKindEvent "apps/v1" "Pod", mkKindEvent "batch/v1" "Pod"] ↔
      mkKindEvent "batch/v1" "Pod" ∈ [mkKindEvent "apps/v1" "Pod", mkKindEvent "batch/v1" "Pod"] ∧
        KindMap.index [(⟨"*", "-Pod"⟩, true), (⟨"apps", "Pod"⟩, true), (⟨"*", "Pod"⟩, true)]
          ⟨(eventGroupKind (mkKindEvent "batch/v1" "Pod")).Group, "-" ++ "Pod"⟩ = false ∧
        KindMap.index [(⟨"*", "-Pod"⟩, true), (⟨"apps", "Pod"⟩, true), (⟨"*", "Pod"⟩, true)]
          ⟨(eventGroupKind (mkKindEvent "batch/v1" "Pod")).Group, "Pod"⟩ = true) ∧
    FilterByKind.FilterEvents
        { Kinds := [(⟨"*", "-Pod"⟩, true), (⟨"apps", "Pod"⟩, true), (⟨"*", "Pod"⟩, true)] }
        [mkKindEvent "apps/v1" "Pod", mkKindEvent "batch/v1" "Pod"]
      = [mkKindEvent "apps/v1" "Pod"] :=
  ⟨by decide,
   FilterByKind.group_wildcard_antimatch_unless_exact
     { Kinds := [(⟨"*", "-Pod"⟩, true), (⟨"apps", "Pod"⟩, true), (⟨"*", "Pod"⟩, true)] }
     "Pod" (by decide) [mkKindEvent "apps/v1" "Pod", mkKindEvent "batch/v1" "Pod"]
     (mkKindEvent "batch/v1" "Pod") rfl,
   by decide⟩

/-- C3 fails as stated: with the entries `{apps, -*}` and `{apps, Deployment}` the
event `apps/v1`, `Deployment` has parsed group `apps`, the map has an entry with kind
`-*` and group `apps`, and yet the event is in the output: the exact inclusion (rule
5) is evaluated before the kind-wildcard anti-match (rule 4). -/
theorem FilterByKind.star_kind_antimatch_counterexample :
    (⟨"apps", "-*"⟩ : GroupKind) ∈
        KindMap.keys [(⟨"apps", "-*"⟩, true), (⟨"apps", "Deployment"⟩, true)] ∧
    (eventGroupKind (mkKindEvent "apps/v1" "Deployment")).Group = "apps" ∧
    mkKindEvent "apps/v1" "Deployment" ∈
      FilterByKind.FilterEvents
        { Kinds := [(⟨"apps", "-*"⟩, true), (⟨"apps", "Deployment"⟩, true)] }
        [mkKindEvent "apps/v1" "Deployment"] := by
  decide

/-- C3, amended: when `Kinds` has an entry with kind `-*` and group `g`, an event whose
parsed group is `g` occurs in the output of `FilterByKind.FilterEvents` exactly when
it occurs in the input, the exact anti-match entry of its kind is not true and the
exact inclusion entry `Kinds[{g, k}]` of its kind `k` is true; no wildcard inclusion
includes it. -/
theorem FilterByKind.kind_wildcard_antimatch_unless_exact (f : FilterByKind) (g : String)
    (h : (⟨g, "-*"⟩ : GroupKind) ∈ f.Kinds.keys) (events : List Event) (e : Event)
    (hg : (eventGroupKind e).Group = g) :
    e ∈ f.FilterEvents events ↔
      e ∈ events ∧ f.Kinds.index ⟨g, "-" ++ e.InvolvedObject.Kind⟩ = false ∧
        f.Kinds.index ⟨g, e.InvolvedObject.Kind⟩ = true := by
  rw [FilterByKind.mem_FilterEvents, eventGroupKind_Kind]
  rw [eventGroupKind_eq e, hg]
  constructor
  · rintro ⟨hmem, hanti, hex | ⟨⟨_, hno⟩, _⟩⟩
    · exact ⟨hmem, hanti, hex⟩
    · exact absurd h hno
  · rintro ⟨hmem, hanti, hex⟩
    exact ⟨hmem, hanti, Or.inl hex⟩

/-- C3, amended, on the entries `{apps, -*}`, `{apps, Deployment}`, `{apps, *}`: the
`Deployment` event is kept through its exact entry, the `ReplicaSet` event is not
brought back by `{apps, *}`. -/
theorem FilterByKind.kind_wildcard_antimatch_unless_exact_witness :
    ((⟨"apps", "-*"⟩ : GroupKind) ∈
        KindMap.keys [(⟨"apps", "-*"⟩, true), (⟨"apps", "Deployment"⟩, true),
          (⟨"apps", "*"⟩, true)] ∧
      (eventGroupKind (mkKindEvent "apps/v1" "ReplicaSet")).Group = "apps") ∧
    (mkKindEvent "apps/v1" "ReplicaSet" ∈
        FilterByKind.FilterEvents
          { Kinds := [(⟨"apps", "-*"⟩, true), (⟨"apps", "Deployment"⟩, true),
                      (⟨"apps", "*"⟩, true)] }
          [mkKindEvent "apps/v1" "Deployment", mkKindEvent "apps/v1" "ReplicaSet"] ↔
      mkKindEvent "apps/v1" "ReplicaSet" ∈
          [mkKindEvent "apps/v1" "Deployment", mkKindEvent "apps/v1" "ReplicaSet"] ∧
        KindMap.index [(⟨"apps", "-*"⟩, true), (⟨"apps", "Deployment"⟩, true),
            (⟨"apps", "*"⟩, true)]
          ⟨"apps", "-" ++ (mkKindEvent "apps/v1" "ReplicaSet").InvolvedObject.Kind⟩ = false ∧
        KindMap.index [(⟨"apps", "-*"⟩, true), (⟨"apps", "Deployment"⟩, true),
            (⟨"apps", "*"⟩, true)]
          ⟨"apps", (mkKindEvent "apps/v1" "ReplicaSet").InvolvedObject.Kind⟩ = true) ∧
    FilterByKind.FilterEvents
        { Kinds := [(⟨"apps", "-*"⟩, true), (⟨"apps", "Deployment"⟩, true),
                    (⟨"apps", "*"⟩, true)] }
        [mkKindEvent "apps/v1" "Deployment", mkKindEvent "apps/v1" "ReplicaSet"]
      = [mkKindEvent "apps/v1" "Deployment"] :=
  ⟨⟨by decide, by decide⟩,
   FilterByKind.kind_wildcard_antimatch_unless_exact
     { Kinds := [(⟨"apps", "-*"⟩, true), (⟨"apps", "Deployment"⟩, true),
                 (⟨"apps", "*"⟩, true)] }
     "apps" (by decide)
     [mkKindEvent "apps/v1" "Deployment", mkKindEvent "apps/v1" "ReplicaSet"]
     (mkKindEvent "apps/v1" "ReplicaSet") (by decide),
   by decide⟩

/-- C4: the pattern `{g, "-*"}` excludes everything in group `g` unless a more specific
inclusion exists. When `Kinds` has the key `{g, "-*"}`, an input event of group `g`
and kind `k` (other than `*`) whose exact anti-match entry `Kinds[{g, "-"+k}]` is not
true occurs in the output exactly when the exact entry `Kinds[{g, k}]` is true; so
the wildcard entries `{*,*}`, `{*,k}`, `{g,*}` alone never bring it back. -/
theorem FilterByKind.kind_wildcard_exclusion_unless_exact (f : FilterByKind) (g k : String)
    (hkey : (⟨g, "-*"⟩ : GroupKind) ∈ f.Kinds.keys) (events : List Event) (e : Event)
    (he : e ∈ events) (hg : (eventGroupKind e).Group = g) (hk : e.InvolvedObject.Kind = k)
    (_hstar : k ≠ "*") (hanti : f.Kinds.index ⟨g, "-" ++ k⟩ ≠ true) :
    (e ∈ f.FilterEvents events ↔ f.Kinds.index ⟨g, k⟩ = true) ∧
    (f.Kinds.index ⟨g, k⟩ ≠ true →
      ((⟨"*", "*"⟩ : GroupKind) ∈ f.Kinds.keys ∨ (⟨"*", k⟩ : GroupKind) ∈ f.Kinds.keys ∨
        (⟨g, "*"⟩ : GroupKind) ∈ f.Kinds.keys) →
      e ∉ f.FilterEvents events) := by
  have hanti2 : f.Kinds.index ⟨g, "-" ++ k⟩ = false := by simpa using hanti
  have hiff : e ∈ f.FilterEvents events ↔ f.Kinds.index ⟨g, k⟩ = true := by
    rw [FilterByKind.mem_FilterEvents, eventGroupKind_Kind, hk]
    rw [eventGroupKind_eq e, hk, hg]
    constructor
    · rintro ⟨_, _, hex | ⟨⟨_, hno⟩, _⟩⟩
      · exact hex
      · exact absurd hkey hno
    · intro hex
      exact ⟨he, hanti2, Or.inl hex⟩
  exact ⟨hiff, fun hne _ hmem => hne (hiff.mp hmem)⟩

/-- C4 on the entries `{apps, -*}`, `{apps, Deployment}`, `{apps, *}`, `{*, *}`: the
`ReplicaSet` event of group `apps` has no exact entry and stays out although the
wildcard entries `{apps, *}` and `{*, *}` are present. -/
theorem FilterByKind.kind_wildcard_exclusion_unless_exact_witness :
    ((⟨"apps", "-*"⟩ : GroupKind) ∈ KindMap.keys
        [(⟨"apps", "-*"⟩, true), (⟨"apps", "Deployment"⟩, true), (⟨"apps", "*"⟩, true),
         (⟨"*", "*"⟩, true)]) ∧
    ((mkKindEvent "apps/v1" "ReplicaSet" ∈
        FilterByKind.FilterEvents
          { Kinds := [(⟨"apps", "-*"⟩, true), (⟨"apps", "Deployment"⟩, true),
                      (⟨"apps", "*"⟩, true), (⟨"*", "*"⟩, true)] }
          [mkKindEvent "apps/v1" "Deployment", mkKindEvent "apps/v1" "ReplicaSet"] ↔
      KindMap.index [(⟨"apps", "-*"⟩, true), (⟨"apps", "Deployment"⟩, true),
          (⟨"apps", "*"⟩, true), (⟨"*", "*"⟩, true)] ⟨"apps", "ReplicaSet"⟩ = true) ∧
     (KindMap.index [(⟨"apps", "-*"⟩, true), (⟨"apps", "Deployment"⟩, true),
          (⟨"apps", "*"⟩, true), (⟨"*", "*"⟩, true)] ⟨"apps", "ReplicaSet"⟩ ≠ true →
      ((⟨"*", "*"⟩ : GroupKind) ∈ KindMap.keys
          [(⟨"apps", "-*"⟩, true), (⟨"apps", "Deployment"⟩, true), (⟨"apps", "*"⟩, true),
           (⟨"*", "*"⟩, true)] ∨
        (⟨"*", "ReplicaSet"⟩ : GroupKind) ∈ KindMap.keys
          [(⟨"apps", "-*"⟩, true), (⟨"apps", "Deployment"⟩, true), (⟨"apps", "*"⟩, true),
           (⟨"*", "*"⟩, true)] ∨
        (⟨"apps", "*"⟩ : GroupKind) ∈ KindMap.keys
          [(⟨"apps", "-*"⟩, true), (⟨"apps", "Deployment"⟩, true), (⟨"apps", "*"⟩, true),
           (⟨"*", "*"⟩, true)]) →
      mkKindEvent "apps/v1" "ReplicaSet" ∉
        FilterByKind.FilterEvents
          { Kinds := [(⟨"apps", "-*"⟩, true), (⟨"apps", "Deployment"⟩, true),
                      (⟨"apps", "*"⟩, true), (⟨"*", "*"⟩, true)] }
          [mkKindEvent "apps/v1" "Deployment", mkKindEvent "apps/v1" "ReplicaSet"])) ∧
    FilterByKind.FilterEvents
        { Kinds := [(⟨"apps", "-*"⟩, true), (⟨"apps", "Deployment"⟩, true),
                    (⟨"apps", "*"⟩, true), (⟨"*", "*"⟩, true)] }
        [mkKindEvent "apps/v1" "Deployment", mkKindEvent "apps/v1" "ReplicaSet"]
      = [mkKindEvent "apps/v1" "Deployment"] :=
  ⟨by decide,
   FilterByKind.kind_wildcard_exclusion_unless_exact
     { Kinds := [(⟨"apps", "-*"⟩, true), (⟨"apps", "Deployment"⟩, true),
                 (⟨"apps", "*"⟩, true), (⟨"*", "*"⟩, true)] }
     "apps" "ReplicaSet" (by decide)
     [mkKindEvent "apps/v1" "Deployment", mkKindEvent "apps/v1" "ReplicaSet"]
     (mkKindEvent "apps/v1" "ReplicaSet") (by decide) (by decide) rfl (by decide) (by decide),
   by decide⟩

/-- C5: inclusion rules 5-9. When every entry of `Kinds` maps to true and no anti-match
rule applies to an input event of parsed group `g` and kind `k` (no key `{g, "-"+k}`,
no key `{"*", "-"+k}`, no key `{g, "-*"}`), the event occurs in the output exactly
when `Kinds` has one of the keys `{g, k}`, `{"*", "*"}`, `{"*", k}`, `{g, "*"}`; and
the empty map gives the empty output on every input. -/
theorem FilterByKind.inclusion_rules :
    (∀ (f : FilterByKind) (events : List Event) (e : Event) (g k : String),
      (∀ kv ∈ f.Kinds, kv.2 = true) → e ∈ events →
      (eventGroupKind e).Group = g → e.InvolvedObject.Kind = k →
      (⟨g, "-" ++ k⟩ : GroupKind) ∉ f.Kinds.keys →
      (⟨"*", "-" ++ k⟩ : GroupKind) ∉ f.Kinds.keys →
      (⟨g, "-*"⟩ : GroupKind) ∉ f.Kinds.keys →
      (e ∈ f.FilterEvents events ↔
        (⟨g, k⟩ : GroupKind) ∈ f.Kinds.keys ∨ (⟨"*", "*"⟩ : GroupKind) ∈ f.Kinds.keys ∨
        (⟨"*", k⟩ : GroupKind) ∈ f.Kinds.keys ∨ (⟨g, "*"⟩ : GroupKind) ∈ f.Kinds.keys)) ∧
    (∀ events : List Event, FilterByKind.FilterEvents { Kinds := [] } events = []) := by
  constructor
  · intro f events e g k hall he hg hk h1 h2 h3
    rw [FilterByKind.mem_FilterEvents, eventGroupKind_Kind, hk]
    rw [eventGroupKind_eq e, hk, hg, KindMap.index_of_all_true hall]
    have hanti := KindMap.index_of_not_mem_keys h1
    constructor
    · rintro ⟨_, _, hex | ⟨_, hw⟩⟩
      · exact Or.inl hex
      · exact Or.inr hw
    · rintro (hex | hw)
      · exact ⟨he, hanti, Or.inl hex⟩
      · exact ⟨he, hanti, Or.inr ⟨⟨h2, h3⟩, hw⟩⟩
  · intro events
    apply List.eq_nil_iff_forall_not_mem.mpr
    intro x hx
    have h := (FilterByKind.mem_FilterEvents _ events x).mp hx
    simp [KindMap.index, KindMap.keys] at h

/-- C5 on the map `{{*, Pod}: true}` and the input `v1`/`Pod`, `v1`/`Node`: no
anti-match key is present, the `Pod` event is included through the key `{*, Pod}`
and the `Node` event, for which no inclusion key is present, is not. -/
theorem FilterByKind.inclusion_rules_witness :
    ((∀ kv ∈ ([(⟨"*", "Pod"⟩, true)] : KindMap), kv.2 = true) ∧
      (eventGroupKind (mkKindEvent "v1" "Pod")).Group = "" ∧
      (⟨"", "-" ++ "Pod"⟩ : GroupKind) ∉ KindMap.keys [(⟨"*", "Pod"⟩, true)] ∧
      (⟨"*", "-" ++ "Pod"⟩ : GroupKind) ∉ KindMap.keys [(⟨"*", "Pod"⟩, true)] ∧
      (⟨"", "-*"⟩ : GroupKind) ∉ KindMap.keys [(⟨"*", "Pod"⟩, true)]) ∧
    (mkKindEvent "v1" "Pod" ∈
        FilterByKind.FilterEvents { Kinds := [(⟨"*", "Pod"⟩, true)] }
          [mkKindEvent "v1" "Pod", mkKindEvent "v1" "Node"] ↔
      (⟨"", "Pod"⟩ : GroupKind) ∈ KindMap.keys [(⟨"*", "Pod"⟩, true)] ∨
      (⟨"*", "*"⟩ : GroupKind) ∈ KindMap.keys [(⟨"*", "Pod"⟩, true)] ∨
      (⟨"*", "Pod"⟩ : GroupKind) ∈ KindMap.keys [(⟨"*", "Pod"⟩, true)] ∨
      (⟨"", "*"⟩ : GroupKind) ∈ KindMap.keys [(⟨"*", "Pod"⟩, true)]) ∧
    FilterByKind.FilterEvents { Kinds := [(⟨"*", "Pod"⟩, true)] }
        [mkKindEvent "v1" "Pod", mkKindEvent "v1" "Node"] = [mkKindEvent "v1" "Pod"] :=
  ⟨⟨by decide, by decide, by decide, by decide, by decide⟩,
   FilterByKind.inclusion_rules.1 { Kinds := [(⟨"*", "Pod"⟩, true)] }
     [mkKindEvent "v1" "Pod", mkKindEvent "v1" "Node"] (mkKindEvent "v1" "Pod") "" "Pod"
     (by decide) (by decide) (by decide) rfl (by decide) (by decide) (by decide),
   by decide⟩

/-- A string with the exclusion prefix differs from the string itself. -/
theorem dash_append_ne (k : String) : "-" ++ k ≠ k := by
  intro h
  have hl := congrArg String.length h
  simp [String.length_append] at hl
  exact absurd hl (by decide)

/-- C6: group-wildcard inclusion with a group-specific exclusion. For a kind `k` and a
group `g0` that neither contain the wildcard nor start with `-`, with
`Kinds = {{"*", k}: true, {g0, "-"+k}: true}` an input event of kind `k` occurs in
the output exactly when its parsed group differs from `g0`, and with
`Kinds = {{"*", k}: true}` alone every input event of kind `k` occurs in the output,
whatever its group. -/
theorem FilterByKind.group_wildcard_inclusion (k g0 : String)
    (_hk : '*' ∉ k.data) (hg0 : '*' ∉ g0.data)
    (hkdash : ¬ ['-'] <+: k.data) (_hg0dash : ¬ ['-'] <+: g0.data)
    (events : List Event) (e : Event) (he : e ∈ events) (hkind : e.InvolvedObject.Kind = k) :
    (e ∈ FilterByKind.FilterEvents { Kinds := [(⟨"*", k⟩, true), (⟨g0, "-" ++ k⟩, true)] } events
      ↔ (eventGroupKind e).Group ≠ g0) ∧
    e ∈ FilterByKind.FilterEvents { Kinds := [(⟨"*", k⟩, true)] } events := by
  have hne : "-" ++ k ≠ k := dash_append_ne k
  have hne2 : k ≠ "-" ++ k := fun h => hne h.symm
  have hg0star : g0 ≠ "*" := by
    rintro rfl
    exact hg0 (by decide)
  have hkds : k ≠ "-*" := by
    rintro rfl
    exact hkdash ⟨['*'], rfl⟩
  have hkds2 : ¬ "-*" = k := fun h => hkds h.symm
  have hg0star2 : ¬ "*" = g0 := fun h => hg0star h.symm
  constructor
  · rw [FilterByKind.mem_FilterEvents, eventGroupKind_Kind, hkind]
    rw [eventGroupKind_eq e, hkind]
    simp only [KindMap.index, KindMap.keys, List.map_cons, List.map_nil, List.mem_cons,
      List.mem_singleton, List.not_mem_nil, GroupKind.mk.injEq, or_false]
    constructor
    · rintro ⟨_, hanti, _⟩ hg
      simp [hne2, hg] at hanti
    · intro hg
      have hg2 : ¬ g0 = (eventGroupKind e).Group := fun h => hg h.symm
      refine ⟨he, by simp [hne2, hg2], Or.inr ⟨⟨?_, ?_⟩, ?_⟩⟩
      · simp [hne, hg0star2]
      · simp [hkds2, hg]
      · simp
  · rw [FilterByKind.mem_FilterEvents, eventGroupKind_Kind, hkind]
    rw [eventGroupKind_eq e, hkind]
    simp only [KindMap.index, KindMap.keys, List.map_cons, List.map_nil,
      List.mem_singleton, GroupKind.mk.injEq]
    refine ⟨he, by simp [hne2], Or.inr ⟨⟨?_, ?_⟩, ?_⟩⟩
    · simp [hne]
    · simp [hkds2]
    · simp

/-- C6 on `Kinds = {{*, Pod}, {core, -Pod}}`: the event `apps/v1`, `Pod` is included,
the event `core/v1`, `Pod` is excluded, and with `{*, Pod}` alone both are kept. -/
theorem FilterByKind.group_wildcard_inclusion_witness :
    ('*' ∉ "Pod".data ∧ '*' ∉ "core".data ∧ ¬ ['-'] <+: "Pod".data ∧
      ¬ ['-'] <+: "core".data) ∧
    ((mkKindEvent "apps/v1" "Pod" ∈
        FilterByKind.FilterEvents
          { Kinds := [(⟨"*", "Pod"⟩, true), (⟨"core", "-" ++ "Pod"⟩, true)] }
          [mkKindEvent "core/v1" "Pod", mkKindEvent "apps/v1" "Pod"] ↔
      (eventGroupKind (mkKindEvent "apps/v1" "Pod")).Group ≠ "core") ∧
     mkKindEvent "apps/v1" "Pod" ∈
        FilterByKind.FilterEvents { Kinds := [(⟨"*", "Pod"⟩, true)] }
          [mkKindEvent "core/v1" "Pod", mkKindEvent "apps/v1" "Pod"]) ∧
    FilterByKind.FilterEvents { Kinds := [(⟨"*", "Pod"⟩, true), (⟨"core", "-Pod"⟩, true)] }
        [mkKindEvent "core/v1" "Pod", mkKindEvent "apps/v1" "Pod"]
      = [mkKindEvent "apps/v1" "Pod"] ∧
    FilterByKind.FilterEvents { Kinds := [(⟨"*", "Pod"⟩, true)] }
        [mkKindEvent "core/v1" "Pod", mkKindEvent "apps/v1" "Pod"]
      = [mkKindEvent "core/v1" "Pod", mkKindEvent "apps/v1" "Pod"] :=
  ⟨⟨by decide, by decide, by decide, by decide⟩,
   FilterByKind.group_wildcard_inclusion "Pod" "core" (by decide) (by decide)
     (by decide) (by decide)
     [mkKindEvent "core/v1" "Pod", mkKindEvent "apps/v1" "Pod"] (mkKindEvent "apps/v1" "Pod")
     (by decide) rfl,
   by decide, by decide⟩

/-- C7, the code at the failing input: with `Kinds = {{apps, Deployment}: true,
{*, Deployment}: true}` the single event `apps/v1`, `Deployment` is appended by the
exact rule and again by the group-wildcard rule, so the output has length 2. -/
theorem FilterByKind.exact_and_wildcard_emit_twice :
    FilterByKind.FilterEvents
        { Kinds := [(⟨"apps", "Deployment"⟩, true), (⟨"*", "Deployment"⟩, true)] }
        [mkKindEvent "apps/v1" "Deployment"]
      = [mkKindEvent "apps/v1" "Deployment", mkKindEvent "apps/v1" "Deployment"] ∧
    (FilterByKind.FilterEvents
        { Kinds := [(⟨"apps", "Deployment"⟩, true), (⟨"*", "Deployment"⟩, true)] }
        [mkKindEvent "apps/v1" "Deployment"]).length = 2 := by
  decide

/-! ## The attribute filters -/

theorem FilterByNamespaces_eq_AttributeMatcher (f : FilterByNamespaces)
    (events : List Event) :
    f.FilterEvents events = AttributeMatcher (fun e => e.InvolvedObject.Namespace)
      f.Namespaces events := by
  unfold FilterByNamespaces.FilterEvents AttributeMatcher
  rw [foldl_eq_append_filter f.step _ _ events []]
  · rfl
  · intro ret e
    unfold FilterByNamespaces.step StringSet.Has
    by_cases h1 : "-" ++ e.InvolvedObject.Namespace ∈ f.Namespaces <;>
      by_cases h2 : e.InvolvedObject.Namespace ∈ f.Namespaces <;> simp [h1, h2]

theorem FilterByNames_eq_AttributeMatcher (f : FilterByNames) (events : List Event) :
    f.FilterEvents events = AttributeMatcher (fun e => e.InvolvedObject.Name)
      f.Names events := by
  unfold FilterByNames.FilterEvents AttributeMatcher
  rw [foldl_eq_append_filter f.step _ _ events []]
  · rfl
  · intro ret e
    unfold FilterByNames.step StringSet.Has
    by_cases h1 : "-" ++ e.InvolvedObject.Name ∈ f.Names <;>
      by_cases h2 : e.InvolvedObject.Name ∈ f.Names <;> simp [h1, h2]

theorem FilterByReasons_eq_AttributeMatcher (f : FilterByReasons) (events : List Event) :
    f.FilterEvents events = AttributeMatcher (fun e => e.Reason) f.Reasons events := by
  unfold FilterByReasons.FilterEvents AttributeMatcher
  rw [foldl_eq_append_filter f.step _ _ events []]
  · rfl
  · intro ret e
    unfold FilterByReasons.step StringSet.Has
    by_cases h1 : "-" ++ e.Reason ∈ f.Reasons <;>
      by_cases h2 : e.Reason ∈ f.Reasons <;> simp [h1, h2]

theorem FilterByUIDs_eq_AttributeMatcher (f : FilterByUIDs) (events : List Event) :
    f.FilterEvents events = AttributeMatcher (fun e => e.InvolvedObject.UID)
      f.UIDs events := by
  unfold FilterByUIDs.FilterEvents AttributeMatcher
  rw [foldl_eq_append_filter f.step _ _ events []]
  · rfl
  · intro ret e
    unfold FilterByUIDs.step StringSet.Has
    by_cases h1 : "-" ++ e.InvolvedObject.UID ∈ f.UIDs <;>
      by_cases h2 : e.InvolvedObject.UID ∈ f.UIDs <;> simp [h1, h2]

theorem FilterByComponent_eq_AttributeMatcher (f : FilterByComponent)
    (events : List Event) :
    f.FilterEvents events = AttributeMatcher (fun e => e.ReportingController)
      f.Components events := by
  unfold FilterByComponent.FilterEvents AttributeMatcher
  rw [foldl_eq_append_filter f.step _ _ events []]
  · rfl
  · intro ret e
    unfold FilterByComponent.step StringSet.Has
    by_cases h1 : "-" ++ e.ReportingController ∈ f.Components <;>
      by_cases h2 : e.ReportingController ∈ f.Components <;> simp [h1, h2]

/-- An event in the output of the attribute matcher has its value in the pattern set
and its negated value outside of it. -/
theorem AttributeMatcher.not_mem_of_anti (attr : Event → String) (P : StringSet) (v : String)
    (hneg : "-" ++ v ∈ P) (events : List Event) :
    ∀ e ∈ AttributeMatcher attr P events, attr e ≠ v := by
  intro e he hv
  unfold AttributeMatcher at he
  rw [List.mem_filter, decide_eq_true_eq, hv] at he
  exact he.2.1 hneg

/-- C8: the attribute matcher rule. Each of the five attribute filters returns exactly
the input filtered, in order, by the predicate `"-"+v ∉ P ∧ v ∈ P` on the value `v`
of its attribute (involved namespace, involved name, reason, involved UID, reporting
controller): the five are the generic `AttributeMatcher` at five extractors. -/
theorem attribute_filters_eq_AttributeMatcher (P : StringSet) (events : List Event) :
    (FilterByNamespaces.FilterEvents { Namespaces := P } events
        = events.filter (fun e => decide ("-" ++ e.InvolvedObject.Namespace ∉ P ∧
            e.InvolvedObject.Namespace ∈ P)) ∧
     FilterByNames.FilterEvents { Names := P } events
        = events.filter (fun e => decide ("-" ++ e.InvolvedObject.Name ∉ P ∧
            e.InvolvedObject.Name ∈ P)) ∧
     FilterByReasons.FilterEvents { Reasons := P } events
        = events.filter (fun e => decide ("-" ++ e.Reason ∉ P ∧ e.Reason ∈ P)) ∧
     FilterByUIDs.FilterEvents { UIDs := P } events
        = events.filter (fun e => decide ("-" ++ e.InvolvedObject.UID ∉ P ∧
            e.InvolvedObject.UID ∈ P)) ∧
     FilterByComponent.FilterEvents { Components := P } events
        = events.filter (fun e => decide ("-" ++ e.ReportingController ∉ P ∧
            e.ReportingController ∈ P))) ∧
    (FilterByNamespaces.FilterEvents { Namespaces := P } events
        = AttributeMatcher (fun e => e.InvolvedObject.Namespace) P events ∧
     FilterByNames.FilterEvents { Names := P } events
        = AttributeMatcher (fun e => e.InvolvedObject.Name) P events ∧
     FilterByReasons.FilterEvents { Reasons := P } events
        = AttributeMatcher (fun e => e.Reason) P events ∧
     FilterByUIDs.FilterEvents { UIDs := P } events
        = AttributeMatcher (fun e => e.InvolvedObject.UID) P events ∧
     FilterByComponent.FilterEvents { Components := P } events
        = AttributeMatcher (fun e => e.ReportingController) P events) :=
  ⟨⟨FilterByNamespaces_eq_AttributeMatcher _ events,
    FilterByNames_eq_AttributeMatcher _ events,
    FilterByReasons_eq_AttributeMatcher _ events,
    FilterByUIDs_eq_AttributeMatcher _ events,
    FilterByComponent_eq_AttributeMatcher _ events⟩,
   ⟨FilterByNamespaces_eq_AttributeMatcher _ events,
    FilterByNames_eq_AttributeMatcher _ events,
    FilterByReasons_eq_AttributeMatcher _ events,
    FilterByUIDs_eq_AttributeMatcher _ events,
    FilterByComponent_eq_AttributeMatcher _ events⟩⟩

/-- C9: anti-match precedence for the attribute filters. When the pattern set `P`
contains both `v` and `"-"+v`, no event whose attribute value is `v` occurs in the
output of `FilterByNamespaces`, `FilterByNames`, `FilterByReasons`, `FilterByUIDs`
or `FilterByComponent`. -/
theorem attribute_filters_antimatch_wins (P : StringSet) (v : String)
    (_hv : v ∈ P) (hneg : "-" ++ v ∈ P) (events : List Event) :
    (∀ e ∈ FilterByNamespaces.FilterEvents { Namespaces := P } events,
        e.InvolvedObject.Namespace ≠ v) ∧
    (∀ e ∈ FilterByNames.FilterEvents { Names := P } events, e.InvolvedObject.Name ≠ v) ∧
    (∀ e ∈ FilterByReasons.FilterEvents { Reasons := P } events, e.Reason ≠ v) ∧
    (∀ e ∈ FilterByUIDs.FilterEvents { UIDs := P } events, e.InvolvedObject.UID ≠ v) ∧
    (∀ e ∈ FilterByComponent.FilterEvents { Components := P } events,
        e.ReportingController ≠ v) := by
  refine ⟨?_, ?_, ?_, ?_, ?_⟩
  · rw [FilterByNamespaces_eq_AttributeMatcher]
    exact AttributeMatcher.not_mem_of_anti _ P v hneg events
  · rw [FilterByNames_eq_AttributeMatcher]
    exact AttributeMatcher.not_mem_of_anti _ P v hneg events
  · rw [FilterByReasons_eq_AttributeMatcher]
    exact AttributeMatcher.not_mem_of_anti _ P v hneg events
  · rw [FilterByUIDs_eq_AttributeMatcher]
    exact AttributeMatcher.not_mem_of_anti _ P v hneg events
  · rw [FilterByComponent_eq_AttributeMatcher]
    exact AttributeMatcher.not_mem_of_anti _ P v hneg events

/-- C9 on `P = {"prod", "-prod", "dev"}`: the events with value `prod` are dropped by
each of the five filters although `prod` is in `P`, and the `dev` event is kept. -/
theorem attribute_filters_antimatch_wins_witness :
    ("prod" ∈ (["prod", "-prod", "dev"] : StringSet) ∧
      "-" ++ "prod" ∈ (["prod", "-prod", "dev"] : StringSet)) ∧
    ((∀ e ∈ FilterByNamespaces.FilterEvents { Namespaces := ["prod", "-prod", "dev"] }
          [mkAttrEvent "prod", mkAttrEvent "dev"], e.InvolvedObject.Namespace ≠ "prod") ∧
     (∀ e ∈ FilterByNames.FilterEvents { Names := ["prod", "-prod", "dev"] }
          [mkAttrEvent "prod", mkAttrEvent "dev"], e.InvolvedObject.Name ≠ "prod") ∧
     (∀ e ∈ FilterByReasons.FilterEvents { Reasons := ["prod", "-prod", "dev"] }
          [mkAttrEvent "prod", mkAttrEvent "dev"], e.Reason ≠ "prod") ∧
     (∀ e ∈ FilterByUIDs.FilterEvents { UIDs := ["prod", "-prod", "dev"] }
          [mkAttrEvent "prod", mkAttrEvent "dev"], e.InvolvedObject.UID ≠ "prod") ∧
     (∀ e ∈ FilterByComponent.FilterEvents { Components := ["prod", "-prod", "dev"] }
          [mkAttrEvent "prod", mkAttrEvent "dev"], e.ReportingController ≠ "prod")) ∧
    FilterByNamespaces.FilterEvents { Namespaces := ["prod", "-prod", "dev"] }
        [mkAttrEvent "prod", mkAttrEvent "dev"] = [mkAttrEvent "dev"] :=
  ⟨⟨by decide, by decide⟩,
   attribute_filters_antimatch_wins ["prod", "-prod", "dev"] "prod" (by decide) (by decide)
     [mkAttrEvent "prod", mkAttrEvent "dev"],
   by decide⟩

/-! ## The chain -/

theorem EventFilters.FilterEvents_append_eq (fs gs : EventFilters) (S : List Event) :
    EventFilters.FilterEvents (fs ++ gs) S
      = EventFilters.FilterEvents gs (EventFilters.FilterEvents fs S) := by
  unfold EventFilters.FilterEvents
  rw [List.foldl_append]

theorem EventFilters.FilterEvents_eq_composition (fs : EventFilters) (S : List Event) :
    EventFilters.FilterEvents fs S = EventFilters.composition fs S := by
  induction fs generalizing S with
  | nil => rfl
  | cons F rest ih =>
    show EventFilters.FilterEvents rest (F S) = EventFilters.composition rest (F S)
    exact ih (F S)

/-- C10: chain composition. The chain over `fs ++ gs` is the chain over `gs` applied to
the result of the chain over `fs`; the chain over `[F1..Fn]` is `Fn(...F2(F1(S)))`,
so the last stage is applied outermost and the first innermost; and a chain used as
one stage of another chain gives the same result as its stages spliced in place. -/
theorem EventFilters.chain_composition (fs gs hs : EventFilters) (F F1 F2 F3 : EventFilter)
    (S : List Event) :
    EventFilters.FilterEvents (fs ++ gs) S
      = EventFilters.FilterEvents gs (EventFilters.FilterEvents fs S) ∧
    EventFilters.FilterEvents fs S = EventFilters.composition fs S ∧
    EventFilters.FilterEvents (fs ++ [F]) S = F (EventFilters.FilterEvents fs S) ∧
    EventFilters.FilterEvents (F :: fs) S = EventFilters.FilterEvents fs (F S) ∧
    EventFilters.FilterEvents [F1, F2, F3] S = F3 (F2 (F1 S)) ∧
    EventFilters.FilterEvents (fs ++ [EventFilters.FilterEvents gs] ++ hs) S
      = EventFilters.FilterEvents (fs ++ gs ++ hs) S ∧
    EventFilters.FilterEvents ((fs ++ gs) ++ hs) S
      = EventFilters.FilterEvents (fs ++ (gs ++ hs)) S := by
  refine ⟨EventFilters.FilterEvents_append_eq fs gs S,
    EventFilters.FilterEvents_eq_composition fs S, ?_, rfl, rfl, ?_, ?_⟩
  · rw [EventFilters.FilterEvents_append_eq]; rfl
  · rw [EventFilters.FilterEvents_append_eq, EventFilters.FilterEvents_append_eq,
      EventFilters.FilterEvents_append_eq (fs ++ gs), EventFilters.FilterEvents_append_eq fs gs]
    rfl
  · rw [List.append_assoc]

/-- C11: identity law of the chain. The empty chain returns its input: the same
elements in the same order, hence the same length, also on the empty input. -/
theorem EventFilters.empty_chain_identity (S : List Event) :
    EventFilters.FilterEvents [] S = S ∧
    (EventFilters.FilterEvents [] S).length = S.length ∧
    (∀ i : Nat, (EventFilters.FilterEvents [] S)[i]? = S[i]?) ∧
    EventFilters.FilterEvents [] [] = [] :=
  ⟨rfl, rfl, fun _ => rfl, rfl⟩

/-! ## The severity filter -/

theorem FilterByWarnings_eq_filter (events : List Event) :
    FilterByWarnings.FilterEvents events
      = events.filter (fun e => decide (e.Type_ = EventTypeWarning)) := by
  unfold FilterByWarnings.FilterEvents
  rw [foldl_eq_append_filter FilterByWarnings.step _ _ events []]
  · rfl
  · intro ret e
    unfold FilterByWarnings.step
    by_cases h : e.Type_ = EventTypeWarning <;> simp [h]

/-- C13: the severity filter. `FilterByWarnings.FilterEvents` returns exactly the input
filtered by `Type == corev1.EventTypeWarning`: an event is kept exactly when its
severity is the warning value, order and multiplicity are those of the input. On the
severities `[Normal, Warning, Normal, Warning]` the result is the second and the
fourth event, in that order. -/
theorem FilterByWarnings.severity_filter :
    (∀ events : List Event,
      FilterByWarnings.FilterEvents events
        = events.filter (fun e => decide (e.Type_ = EventTypeWarning))) ∧
    (∀ (events : List Event) (e : Event),
      e ∈ FilterByWarnings.FilterEvents events ↔ e ∈ events ∧ e.Type_ = "Warning") ∧
    (∀ (events : List Event) (e : Event),
      (FilterByWarnings.FilterEvents events).count e
        = if e.Type_ = "Warning" then events.count e else 0) ∧
    FilterByWarnings.FilterEvents
        [mkEvent "Normal" "ns" "a", mkEvent "Warning" "ns" "b", mkEvent "Normal" "ns" "c",
         mkEvent "Warning" "ns" "d"]
      = [mkEvent "Warning" "ns" "b", mkEvent "Warning" "ns" "d"] := by
  refine ⟨FilterByWarnings_eq_filter, ?_, ?_, by decide⟩
  · intro events e
    rw [FilterByWarnings_eq_filter, List.mem_filter, decide_eq_true_eq]
    rfl
  · intro events e
    rw [FilterByWarnings_eq_filter]
    by_cases h : e.Type_ = "Warning"
    · rw [if_pos h, List.count_filter]
      simp [h, EventTypeWarning]
    · rw [if_neg h, List.count_eq_zero, List.mem_filter, decide_eq_true_eq]
      exact fun hm => h hm.2

/-- C14: the chain of the severity filter and the namespace filter. For every pattern
set `P` and input `S` the chain `[FilterByWarnings, FilterByNamespaces{P}]` returns
`S` filtered by `Type == Warning`, namespace in `P` and `"-"`+namespace not in `P`;
with `P = {"prod"}` the input `[{Warning, prod}, {Warning, dev}, {Normal, prod}]`
gives `[{Warning, prod}]`. -/
theorem EventFilters.warnings_then_namespaces :
    (∀ (P : StringSet) (S : List Event),
      EventFilters.FilterEvents
          [FilterByWarnings.FilterEvents, FilterByNamespaces.FilterEvents { Namespaces := P }] S
        = S.filter (fun e => decide (e.Type_ = EventTypeWarning ∧
            e.InvolvedObject.Namespace ∈ P ∧ "-" ++ e.InvolvedObject.Namespace ∉ P))) ∧
    EventFilters.FilterEvents
        [FilterByWarnings.FilterEvents, FilterByNamespaces.FilterEvents { Namespaces := ["prod"] }]
        [mkEvent "Warning" "prod" "a", mkEvent "Warning" "dev" "b", mkEvent "Normal" "prod" "c"]
      = [mkEvent "Warning" "prod" "a"] := by
  refine ⟨?_, by decide⟩
  intro P S
  show FilterByNamespaces.FilterEvents { Namespaces := P } (FilterByWarnings.FilterEvents S) = _
  rw [FilterByNamespaces_eq_AttributeMatcher, FilterByWarnings_eq_filter]
  unfold AttributeMatcher
  rw [List.filter_filter]
  apply List.filter_congr
  intro e _
  by_cases h1 : e.Type_ = EventTypeWarning <;>
    by_cases h2 : e.InvolvedObject.Namespace ∈ P <;>
    by_cases h3 : "-" ++ e.InvolvedObject.Namespace ∈ P <;> simp [h1, h2, h3]

/-! ## Multiplicities -/

/-- One round of the outer loop of `FilterByKind` emits `multiplicity` copies of the
current event. -/
theorem FilterByKind.step_nil_eq_replicate (f : FilterByKind) (event : Event) :
    f.step [] event = List.replicate (f.multiplicity event) event := by
  have hA := FilterByKind.antiMatchedLoop_eq_true (eventGroupKind event)
    { Kind := "-" ++ (eventGroupKind event).Kind, Group := (eventGroupKind event).Group } f.Kinds
  have hR := FilterByKind.resourceLoop_eq_singleton (eventGroupKind event) event f.Kinds
  have hC := FilterByKind.resourceLoop_nil_cases (eventGroupKind event) event f.Kinds
  have heta : (⟨(eventGroupKind event).Group, (eventGroupKind event).Kind⟩ : GroupKind)
      = eventGroupKind event := rfl
  unfold FilterByKind.step FilterByKind.multiplicity
  rw [heta]
  by_cases h1 : f.Kinds.index
      { Kind := "-" ++ (eventGroupKind event).Kind, Group := (eventGroupKind event).Group } = true
  · simp [h1]
  · have h1f : f.Kinds.index
        { Kind := "-" ++ (eventGroupKind event).Kind, Group := (eventGroupKind event).Group }
          = false := by simpa using h1
    by_cases h3 : FilterByKind.antiMatchedLoop (eventGroupKind event)
        { Kind := "-" ++ (eventGroupKind event).Kind, Group := (eventGroupKind event).Group }
        f.Kinds = true
    · have hk := hA.mp h3
      have hcond : ¬ ((((⟨"*", "-" ++ (eventGroupKind event).Kind⟩ : GroupKind) ∉ f.Kinds.keys ∧
          (⟨(eventGroupKind event).Group, "-*"⟩ : GroupKind) ∉ f.Kinds.keys)) ∧
          ((⟨"*", "*"⟩ : GroupKind) ∈ f.Kinds.keys ∨
            (⟨"*", (eventGroupKind event).Kind⟩ : GroupKind) ∈ f.Kinds.keys ∨
            (⟨(eventGroupKind event).Group, "*"⟩ : GroupKind) ∈ f.Kinds.keys)) :=
        fun h => hk.elim h.1.1 h.1.2
      by_cases h2 : f.Kinds.index (eventGroupKind event) = true
      · simp only [h1f, h2, h3, hcond, if_true, if_false, Bool.false_eq_true, List.nil_append]
        rfl
      · simp only [h1f, h2, h3, hcond, if_true, if_false, Bool.false_eq_true]
        rfl
    · have hk : ¬ ((⟨"*", "-" ++ (eventGroupKind event).Kind⟩ : GroupKind) ∈ f.Kinds.keys ∨
          (⟨(eventGroupKind event).Group, "-*"⟩ : GroupKind) ∈ f.Kinds.keys) :=
        fun h => h3 (hA.mpr h)
      have hk2 := not_or.mp hk
      rcases hC with hC | hC
      · have hn := mt hR.mpr (by simp [hC])
        have hcond : ¬ ((((⟨"*", "-" ++ (eventGroupKind event).Kind⟩ : GroupKind) ∉ f.Kinds.keys ∧
            (⟨(eventGroupKind event).Group, "-*"⟩ : GroupKind) ∉ f.Kinds.keys)) ∧
            ((⟨"*", "*"⟩ : GroupKind) ∈ f.Kinds.keys ∨
              (⟨"*", (eventGroupKind event).Kind⟩ : GroupKind) ∈ f.Kinds.keys ∨
              (⟨(eventGroupKind event).Group, "*"⟩ : GroupKind) ∈ f.Kinds.keys)) :=
          fun h => hn h.2
        by_cases h2 : f.Kinds.index (eventGroupKind event) = true
        · simp only [h1f, h2, h3, hcond, if_true, if_false, Bool.false_eq_true, List.nil_append]
          rw [FilterByKind.resourceLoop_eq_append, hC]
          rfl
        · simp only [h1f, h2, h3, hcond, if_true, if_false, Bool.false_eq_true]
          rw [hC]
          rfl
      · have hy := hR.mp hC
        have hcond : (((⟨"*", "-" ++ (eventGroupKind event).Kind⟩ : GroupKind) ∉ f.Kinds.keys ∧
            (⟨(eventGroupKind event).Group, "-*"⟩ : GroupKind) ∉ f.Kinds.keys)) ∧
            ((⟨"*", "*"⟩ : GroupKind) ∈ f.Kinds.keys ∨
              (⟨"*", (eventGroupKind event).Kind⟩ : GroupKind) ∈ f.Kinds.keys ∨
              (⟨(eventGroupKind event).Group, "*"⟩ : GroupKind) ∈ f.Kinds.keys) :=
          ⟨hk2, hy⟩
        by_cases h2 : f.Kinds.index (eventGroupKind event) = true
        · simp only [h1f, h2, h3, hcond, if_true, if_false, Bool.false_eq_true, List.nil_append]
          rw [FilterByKind.resourceLoop_eq_append, hC]
          rfl
        · simp only [h1f, h2, h3, hcond, if_true, if_false, Bool.false_eq_true]
          rw [hC]
          rfl

/-- The output of `FilterByKind.FilterEvents` lists every input event as many times as
its multiplicity says, in input order. -/
theorem FilterByKind.FilterEvents_eq_replicate (f : FilterByKind) (events : List Event) :
    f.FilterEvents events
      = events.flatMap (fun e => List.replicate (f.multiplicity e) e) := by
  rw [FilterByKind.FilterEvents_eq_flatMap]
  congr 1
  funext e
  exact FilterByKind.step_nil_eq_replicate f e

theorem FilterByKind.multiplicity_le_two (f : FilterByKind) (e : Event) :
    f.multiplicity e ≤ 2 := by
  unfold FilterByKind.multiplicity
  split_ifs <;> omega

theorem replicate_flatMap_sublist_doubled (n : Event → Nat) (hn : ∀ e, n e ≤ 2)
    (S : List Event) :
    List.Sublist (S.flatMap (fun e => List.replicate (n e) e))
      (S.flatMap (fun e => [e, e])) := by
  induction S with
  | nil => simp
  | cons e rest ih =>
    rw [List.flatMap_cons, List.flatMap_cons]
    exact List.Sublist.append ((List.replicate_sublist_replicate e).mpr (hn e)) ih

theorem replicate_flatMap_length_le (n : Event → Nat) (hn : ∀ e, n e ≤ 2) (S : List Event) :
    (S.flatMap (fun e => List.replicate (n e) e)).length ≤ 2 * S.length := by
  induction S with
  | nil => simp
  | cons e rest ih =>
    rw [List.flatMap_cons, List.length_append, List.length_replicate, List.length_cons]
    have := hn e
    omega

/-- C12, the code at the failing input: with `Kinds = {{apps, Deployment}: true,
{*, Deployment}: true}` and the single event `apps/v1`, `Deployment` the output of
`FilterByKind.FilterEvents`, alone or as the only stage of a chain, is not a sublist
of the input and holds a duplicate the input does not have. -/
theorem FilterByKind.output_not_sublist_of_input :
    ¬ List.Sublist
        (FilterByKind.FilterEvents
          { Kinds := [(⟨"apps", "Deployment"⟩, true), (⟨"*", "Deployment"⟩, true)] }
          [mkKindEvent "apps/v1" "Deployment"])
        [mkKindEvent "apps/v1" "Deployment"] ∧
    ¬ List.Sublist
        (EventFilters.FilterEvents
          [FilterByKind.FilterEvents
            { Kinds := [(⟨"apps", "Deployment"⟩, true), (⟨"*", "Deployment"⟩, true)] }]
          [mkKindEvent "apps/v1" "Deployment"])
        [mkKindEvent "apps/v1" "Deployment"] ∧
    [mkKindEvent "apps/v1" "Deployment"].Nodup ∧
    ¬ (FilterByKind.FilterEvents
          { Kinds := [(⟨"apps", "Deployment"⟩, true), (⟨"*", "Deployment"⟩, true)] }
          [mkKindEvent "apps/v1" "Deployment"]).Nodup := by
  have h : FilterByKind.FilterEvents
      { Kinds := [(⟨"apps", "Deployment"⟩, true), (⟨"*", "Deployment"⟩, true)] }
      [mkKindEvent "apps/v1" "Deployment"]
      = [mkKindEvent "apps/v1" "Deployment", mkKindEvent "apps/v1" "Deployment"] := by
    decide
  have hs : ¬ List.Sublist
      [mkKindEvent "apps/v1" "Deployment", mkKindEvent "apps/v1" "Deployment"]
      [mkKindEvent "apps/v1" "Deployment"] := fun hsub => by
    have := hsub.length_le
    simp at this
  refine ⟨?_, ?_, by simp, ?_⟩
  · rw [h]; exact hs
  · show ¬ List.Sublist (FilterByKind.FilterEvents _ _) _
    rw [h]; exact hs
  · rw [h]; simp

/-- C18: exact multiplicity of `FilterByKind`. The output is the concatenation, over the
events `e` of the input in order, of `n(e)` copies of `e`, with `n(e)` as in
`FilterByKind.multiplicity`; so every occurrence is emitted 0, 1 or 2 times, the
output is at most twice as long as the input, and it is a sublist of the input with
every element doubled. -/
theorem FilterByKind.exact_multiplicity (f : FilterByKind) (S : List Event) :
    f.FilterEvents S = S.flatMap (fun e => List.replicate (f.multiplicity e) e) ∧
    (∀ e : Event, f.multiplicity e = 0 ∨ f.multiplicity e = 1 ∨ f.multiplicity e = 2) ∧
    (∀ e : Event, (f.FilterEvents S).count e = S.count e * f.multiplicity e) ∧
    (f.FilterEvents S).length ≤ 2 * S.length ∧
    List.Sublist (f.FilterEvents S) (S.flatMap (fun e => [e, e])) := by
  refine ⟨FilterByKind.FilterEvents_eq_replicate f S, ?_, ?_, ?_, ?_⟩
  · intro e
    have := FilterByKind.multiplicity_le_two f e
    omega
  · intro e
    rw [FilterByKind.FilterEvents_eq_replicate]
    induction S with
    | nil => simp
    | cons x rest ih =>
      rw [List.flatMap_cons, List.count_append, ih, List.count_replicate, List.count_cons]
      by_cases hx : x = e
      · subst hx; simp [Nat.add_mul, Nat.add_comm]
      · simp [hx]
  · rw [FilterByKind.FilterEvents_eq_replicate]
    exact replicate_flatMap_length_le _ (FilterByKind.multiplicity_le_two f) S
  · rw [FilterByKind.FilterEvents_eq_replicate]
    exact replicate_flatMap_sublist_doubled _ (FilterByKind.multiplicity_le_two f) S

/-! ## Traversal order of the map -/

/-- In a map, whose keys are distinct, the index expression is true exactly when the
entry with that key and the value `true` is present. -/
theorem KindMap.index_eq_true_iff_mem {m : KindMap} (hnd : m.keys.Nodup) (key : GroupKind) :
    m.index key = true ↔ (key, true) ∈ m := by
  induction m with
  | nil => simp [KindMap.index]
  | cons kv rest ih =>
    obtain ⟨k, v⟩ := kv
    simp only [KindMap.keys, List.map_cons, List.nodup_cons] at hnd
    have ih2 := ih hnd.2
    simp only [KindMap.index, List.mem_cons, Prod.mk.injEq]
    by_cases hk : k = key
    · subst hk
      rw [if_pos rfl]
      constructor
      · intro hv; exact Or.inl ⟨rfl, hv.symm⟩
      · rintro (⟨_, hv⟩ | hmem)
        · exact hv.symm
        · exact absurd (List.mem_map_of_mem Prod.fst hmem) hnd.1
    · rw [if_neg hk, ih2]
      constructor
      · exact Or.inr
      · rintro (⟨hk2, _⟩ | hmem)
        · exact absurd hk2.symm hk
        · exact hmem

theorem KindMap.index_perm {m1 m2 : KindMap} (hperm : m1.Perm m2) (hnd : m1.keys.Nodup)
    (key : GroupKind) : m1.index key = m2.index key := by
  have hnd2 : m2.keys.Nodup := ((hperm.map Prod.fst).nodup_iff).mp hnd
  rw [Bool.eq_iff_iff, KindMap.index_eq_true_iff_mem hnd, KindMap.index_eq_true_iff_mem hnd2]
  exact hperm.mem_iff

theorem KindMap.mem_keys_perm {m1 m2 : KindMap} (hperm : m1.Perm m2) (key : GroupKind) :
    key ∈ m1.keys ↔ key ∈ m2.keys :=
  (hperm.map Prod.fst).mem_iff

theorem FilterByKind.antiMatchedLoop_perm {m1 m2 : KindMap} (hperm : m1.Perm m2)
    (gk antiMatch : GroupKind) :
    FilterByKind.antiMatchedLoop gk antiMatch m1
      = FilterByKind.antiMatchedLoop gk antiMatch m2 := by
  rw [Bool.eq_iff_iff, FilterByKind.antiMatchedLoop_eq_true,
    FilterByKind.antiMatchedLoop_eq_true, KindMap.mem_keys_perm hperm,
    KindMap.mem_keys_perm hperm]

theorem FilterByKind.resourceLoop_perm {m1 m2 : KindMap} (hperm : m1.Perm m2)
    (gk : GroupKind) (event : Event) (ret : List Event) :
    FilterByKind.resourceLoop gk event ret m1 = FilterByKind.resourceLoop gk event ret m2 := by
  rw [FilterByKind.resourceLoop_eq_append gk event ret m1,
    FilterByKind.resourceLoop_eq_append gk event ret m2]
  congr 1
  have h1 := FilterByKind.resourceLoop_eq_singleton gk event m1
  have h2 := FilterByKind.resourceLoop_eq_singleton gk event m2
  rw [KindMap.mem_keys_perm hperm, KindMap.mem_keys_perm hperm,
    KindMap.mem_keys_perm hperm] at h1
  have h12 := h1.trans h2.symm
  rcases FilterByKind.resourceLoop_nil_cases gk event m1 with c1 | c1
  · rcases FilterByKind.resourceLoop_nil_cases gk event m2 with c2 | c2
    · rw [c1, c2]
    · have := h12.mpr c2
      rw [c1] at this
      exact absurd this (by simp)
  · rw [c1, h12.mp c1]

theorem FilterByKind.step_perm {m1 m2 : KindMap} (hperm : m1.Perm m2) (hnd : m1.keys.Nodup)
    (ret : List Event) (event : Event) :
    FilterByKind.step { Kinds := m1 } ret event = FilterByKind.step { Kinds := m2 } ret event := by
  unfold FilterByKind.step
  simp only [KindMap.index_perm hperm hnd, FilterByKind.antiMatchedLoop_perm hperm,
    FilterByKind.resourceLoop_perm hperm]

/-- C16: independence of the map iteration order. For two traversal orders `m1`, `m2`
of the same map (a permutation of its entries, the keys being distinct),
`FilterByKind.FilterEvents` returns the same output on every input; each of the two
`range` loops returns the same value in both orders, because the first one only
decides whether a key `{"*", "-"+k}` or `{g, "-*"}` exists and the second one whether
a key `{"*", "*"}`, `{"*", k}` or `{g, "*"}` exists. -/
theorem FilterByKind.iteration_order_independent (m1 m2 : KindMap) (hperm : m1.Perm m2)
    (hnd : m1.keys.Nodup) (events : List Event) :
    FilterByKind.FilterEvents { Kinds := m1 } events
      = FilterByKind.FilterEvents { Kinds := m2 } events ∧
    (∀ gk antiMatch : GroupKind,
      FilterByKind.antiMatchedLoop gk antiMatch m1
        = FilterByKind.antiMatchedLoop gk antiMatch m2) ∧
    (∀ (gk : GroupKind) (event : Event) (ret : List Event),
      FilterByKind.resourceLoop gk event ret m1
        = FilterByKind.resourceLoop gk event ret m2) ∧
    (∀ gk antiMatch : GroupKind,
      FilterByKind.antiMatchedLoop gk antiMatch m1 = true ↔
        ∃ key ∈ m1.keys, (key.Group = "*" ∧ key.Kind = antiMatch.Kind) ∨
          (key.Kind = "-*" ∧ key.Group = gk.Group)) ∧
    (∀ (gk : GroupKind) (event : Event) (ret : List Event),
      FilterByKind.resourceLoop gk event ret m1 =
        if ∃ key ∈ m1.keys, (key.Group = "*" ∧ key.Kind = "*") ∨
            (key.Group = "*" ∧ key.Kind = gk.Kind) ∨ (key.Kind = "*" ∧ key.Group = gk.Group)
        then ret ++ [event] else ret) := by
  refine ⟨?_, fun gk am => FilterByKind.antiMatchedLoop_perm hperm gk am,
    fun gk e ret => FilterByKind.resourceLoop_perm hperm gk e ret, ?_, ?_⟩
  · unfold FilterByKind.FilterEvents
    congr 1
    funext ret event
    exact FilterByKind.step_perm hperm hnd ret event
  · intro gk am
    rw [FilterByKind.antiMatchedLoop_eq_true]
    constructor
    · rintro (h | h)
      · exact ⟨_, h, Or.inl ⟨rfl, rfl⟩⟩
      · exact ⟨_, h, Or.inr ⟨rfl, rfl⟩⟩
    · rintro ⟨key, hkey, (⟨h1, h2⟩ | ⟨h1, h2⟩)⟩
      · exact Or.inl ((GroupKind.eq_mk_iff key _ _).mpr ⟨h1, h2⟩ ▸ hkey)
      · exact Or.inr ((GroupKind.eq_mk_iff key _ _).mpr ⟨h2, h1⟩ ▸ hkey)
  · intro gk event ret
    rw [FilterByKind.resourceLoop_eq_append]
    have hS := FilterByKind.resourceLoop_eq_singleton gk event m1
    have hiff : (∃ key ∈ m1.keys, (key.Group = "*" ∧ key.Kind = "*") ∨
          (key.Group = "*" ∧ key.Kind = gk.Kind) ∨ (key.Kind = "*" ∧ key.Group = gk.Group)) ↔
        ((⟨"*", "*"⟩ : GroupKind) ∈ m1.keys ∨ (⟨"*", gk.Kind⟩ : GroupKind) ∈ m1.keys ∨
          (⟨gk.Group, "*"⟩ : GroupKind) ∈ m1.keys) := by
      constructor
      · rintro ⟨key, hkey, (⟨h1, h2⟩ | ⟨h1, h2⟩ | ⟨h1, h2⟩)⟩
        · exact Or.inl ((GroupKind.eq_mk_iff key _ _).mpr ⟨h1, h2⟩ ▸ hkey)
        · exact Or.inr (Or.inl ((GroupKind.eq_mk_iff key _ _).mpr ⟨h1, h2⟩ ▸ hkey))
        · exact Or.inr (Or.inr ((GroupKind.eq_mk_iff key _ _).mpr ⟨h2, h1⟩ ▸ hkey))
      · rintro (h | h | h)
        · exact ⟨_, h, Or.inl ⟨rfl, rfl⟩⟩
        · exact ⟨_, h, Or.inr (Or.inl ⟨rfl, rfl⟩)⟩
        · exact ⟨_, h, Or.inr (Or.inr ⟨rfl, rfl⟩)⟩
    by_cases hex : ∃ key ∈ m1.keys, (key.Group = "*" ∧ key.Kind = "*") ∨
          (key.Group = "*" ∧ key.Kind = gk.Kind) ∨ (key.Kind = "*" ∧ key.Group = gk.Group)
    · rw [if_pos hex, hS.mpr (hiff.mp hex)]
    · rw [if_neg hex]
      rcases FilterByKind.resourceLoop_nil_cases gk event m1 with c | c
      · rw [c, List.append_nil]
      · exact absurd (hiff.mpr (hS.mp c)) hex

/-- C16 on the map `{{apps, Deployment}: true, {*, Pod}: true, {*, -Node}: false}`
traversed in two orders: both give the same output, the `Deployment` and the `Pod`
event. -/
theorem FilterByKind.iteration_order_independent_witness :
    List.Perm
      ([(⟨"apps", "Deployment"⟩, true), (⟨"*", "Pod"⟩, true), (⟨"*", "-Node"⟩, false)] : KindMap)
      [(⟨"*", "Pod"⟩, true), (⟨"apps", "Deployment"⟩, true), (⟨"*", "-Node"⟩, false)] ∧
    (KindMap.keys
      [(⟨"apps", "Deployment"⟩, true), (⟨"*", "Pod"⟩, true), (⟨"*", "-Node"⟩, false)]).Nodup ∧
    FilterByKind.FilterEvents
        { Kinds := [(⟨"apps", "Deployment"⟩, true), (⟨"*", "Pod"⟩, true),
                    (⟨"*", "-Node"⟩, false)] }
        [mkKindEvent "apps/v1" "Deployment", mkKindEvent "v1" "Node", mkKindEvent "v1" "Pod"]
      = FilterByKind.FilterEvents
        { Kinds := [(⟨"*", "Pod"⟩, true), (⟨"apps", "Deployment"⟩, true),
                    (⟨"*", "-Node"⟩, false)] }
        [mkKindEvent "apps/v1" "Deployment", mkKindEvent "v1" "Node", mkKindEvent "v1" "Pod"] ∧
    FilterByKind.FilterEvents
        { Kinds := [(⟨"apps", "Deployment"⟩, true), (⟨"*", "Pod"⟩, true),
                    (⟨"*", "-Node"⟩, false)] }
        [mkKindEvent "apps/v1" "Deployment", mkKindEvent "v1" "Node", mkKindEvent "v1" "Pod"]
      = [mkKindEvent "apps/v1" "Deployment", mkKindEvent "v1" "Pod"] :=
  ⟨List.Perm.swap _ _ _, by decide,
   (FilterByKind.iteration_order_independent
      [(⟨"apps", "Deployment"⟩, true), (⟨"*", "Pod"⟩, true), (⟨"*", "-Node"⟩, false)]
      [(⟨"*", "Pod"⟩, true), (⟨"apps", "Deployment"⟩, true), (⟨"*", "-Node"⟩, false)]
      (List.Perm.swap _ _ _) (by decide)
      [mkKindEvent "apps/v1" "Deployment", mkKindEvent "v1" "Node",
       mkKindEvent "v1" "Pod"]).1,
   by decide⟩

/-! ## The prefixed pattern set and the two-set structure -/

theorem eq_dash_append_iff (p v : String) : p = "-" ++ v ↔ p.data = '-' :: v.data := by
  constructor
  · intro h
    rw [h, String.data_append]
    rfl
  · intro h
    apply String.ext
    rw [String.data_append, h]
    rfl

theorem stripExclusionPrefix_eq_some (p v : String) :
    stripExclusionPrefix p = some v ↔ p = "-" ++ v := by
  rw [eq_dash_append_iff]
  unfold stripExclusionPrefix
  cases hp : p.data with
  | nil => simp
  | cons c rest =>
    by_cases hc : c = '-'
    · subst hc
      simp only [if_true, Option.some.injEq, List.cons.injEq, true_and]
      constructor
      · intro h; rw [← h]
      · intro h; rw [h]
    · simp [hc]

theorem IncludeExclude.mem_excludes (P : StringSet) (v : String) :
    v ∈ (IncludeExclude.ofPatternSet P).excludes ↔ "-" ++ v ∈ P := by
  unfold IncludeExclude.ofPatternSet
  simp only [List.mem_filterMap, stripExclusionPrefix_eq_some]
  constructor
  · rintro ⟨p, hp, rfl⟩
    exact hp
  · intro h
    exact ⟨_, h, rfl⟩

theorem IncludeExclude.mem_includes (P : StringSet) (v : String) :
    v ∈ (IncludeExclude.ofPatternSet P).includes ↔ v ∈ P ∧ hasExclusionPrefix v = false := by
  unfold IncludeExclude.ofPatternSet
  simp [List.mem_filter]

theorem AttributeMatcher_eq_two_sets (attr : Event → String) (P : StringSet)
    (events : List Event) (h : ∀ e ∈ events, hasExclusionPrefix (attr e) = false) :
    AttributeMatcher attr P events
      = IncludeExclude.FilterEvents attr (IncludeExclude.ofPatternSet P) events := by
  unfold AttributeMatcher IncludeExclude.FilterEvents
  apply List.filter_congr
  intro e he
  rw [Bool.eq_iff_iff, decide_eq_true_eq, decide_eq_true_eq, IncludeExclude.mem_includes,
    IncludeExclude.mem_excludes]
  have := h e he
  tauto

theorem AttributeMatcher_only_exclusions (attr : Event → String) (P : StringSet)
    (events : List Event) (hP : ∀ p ∈ P, hasExclusionPrefix p = true)
    (h : ∀ e ∈ events, hasExclusionPrefix (attr e) = false) :
    AttributeMatcher attr P events = [] := by
  unfold AttributeMatcher
  rw [List.filter_eq_nil_iff]
  intro e he hdec
  rw [decide_eq_true_eq] at hdec
  have h1 := hP _ hdec.2
  rw [h e he] at h1
  exact Bool.noConfusion h1

/-- C17: the prefixed pattern set against the explicit two-set structure. With
`includes` the patterns of `P` that do not start with `-` and `excludes` the values
`v` with `"-"+v` in `P`, each of the five attribute filters returns, on every input
in which no event's attribute value starts with `-`, exactly the input filtered by
`v ∈ includes ∧ v ∉ excludes`; on such inputs a pattern set made only of exclusion
patterns selects nothing. -/
theorem attribute_filters_eq_two_sets (P : StringSet) (events : List Event) :
    (∀ v : String,
      v ∈ (IncludeExclude.ofPatternSet P).includes ↔ v ∈ P ∧ hasExclusionPrefix v = false) ∧
    (∀ v : String, v ∈ (IncludeExclude.ofPatternSet P).excludes ↔ "-" ++ v ∈ P) ∧
    ((∀ e ∈ events, hasExclusionPrefix e.InvolvedObject.Namespace = false) →
      FilterByNamespaces.FilterEvents { Namespaces := P } events
          = IncludeExclude.FilterEvents (fun e => e.InvolvedObject.Namespace)
              (IncludeExclude.ofPatternSet P) events ∧
        ((∀ p ∈ P, hasExclusionPrefix p = true) →
          FilterByNamespaces.FilterEvents { Namespaces := P } events = [])) ∧
    ((∀ e ∈ events, hasExclusionPrefix e.InvolvedObject.Name = false) →
      FilterByNames.FilterEvents { Names := P } events
          = IncludeExclude.FilterEvents (fun e => e.InvolvedObject.Name)
              (IncludeExclude.ofPatternSet P) events ∧
        ((∀ p ∈ P, hasExclusionPrefix p = true) →
          FilterByNames.FilterEvents { Names := P } events = [])) ∧
    ((∀ e ∈ events, hasExclusionPrefix e.Reason = false) →
      FilterByReasons.FilterEvents { Reasons := P } events
          = IncludeExclude.FilterEvents (fun e => e.Reason)
              (IncludeExclude.ofPatternSet P) events ∧
        ((∀ p ∈ P, hasExclusionPrefix p = true) →
          FilterByReasons.FilterEvents { Reasons := P } events = [])) ∧
    ((∀ e ∈ events, hasExclusionPrefix e.InvolvedObject.UID = false) →
      FilterByUIDs.FilterEvents { UIDs := P } events
          = IncludeExclude.FilterEvents (fun e => e.InvolvedObject.UID)
              (IncludeExclude.ofPatternSet P) events ∧
        ((∀ p ∈ P, hasExclusionPrefix p = true) →
          FilterByUIDs.FilterEvents { UIDs := P } events = [])) ∧
    ((∀ e ∈ events, hasExclusionPrefix e.ReportingController = false) →
      FilterByComponent.FilterEvents { Components := P } events
          = IncludeExclude.FilterEvents (fun e => e.ReportingController)
              (IncludeExclude.ofPatternSet P) events ∧
        ((∀ p ∈ P, hasExclusionPrefix p = true) →
          FilterByComponent.FilterEvents { Components := P } events = [])) := by
  refine ⟨IncludeExclude.mem_includes P, IncludeExclude.mem_excludes P, ?_, ?_, ?_, ?_, ?_⟩
  · intro h
    rw [FilterByNamespaces_eq_AttributeMatcher]
    exact ⟨AttributeMatcher_eq_two_sets _ P events h,
      fun hP => AttributeMatcher_only_exclusions _ P events hP h⟩
  · intro h
    rw [FilterByNames_eq_AttributeMatcher]
    exact ⟨AttributeMatcher_eq_two_sets _ P events h,
      fun hP => AttributeMatcher_only_exclusions _ P events hP h⟩
  · intro h
    rw [FilterByReasons_eq_AttributeMatcher]
    exact ⟨AttributeMatcher_eq_two_sets _ P events h,
      fun hP => AttributeMatcher_only_exclusions _ P events hP h⟩
  · intro h
    rw [FilterByUIDs_eq_AttributeMatcher]
    exact ⟨AttributeMatcher_eq_two_sets _ P events h,
      fun hP => AttributeMatcher_only_exclusions _ P events hP h⟩
  · intro h
    rw [FilterByComponent_eq_AttributeMatcher]
    exact ⟨AttributeMatcher_eq_two_sets _ P events h,
      fun hP => AttributeMatcher_only_exclusions _ P events hP h⟩

/-- C17 on `P = {"prod", "-dev", "dev"}`: the two sets are `includes = {prod, dev}` and
`excludes = {dev}`, and on the events with values `prod`, `dev`, `test` the namespace
filter and the two-set matcher both keep the `prod` event only; the pattern set
`{"-dev"}` selects nothing. -/
theorem attribute_filters_eq_two_sets_witness :
    (∀ e ∈ [mkAttrEvent "prod", mkAttrEvent "dev", mkAttrEvent "test"],
      hasExclusionPrefix e.InvolvedObject.Namespace = false) ∧
    (FilterByNamespaces.FilterEvents { Namespaces := ["prod", "-dev", "dev"] }
        [mkAttrEvent "prod", mkAttrEvent "dev", mkAttrEvent "test"]
      = IncludeExclude.FilterEvents (fun e => e.InvolvedObject.Namespace)
          (IncludeExclude.ofPatternSet ["prod", "-dev", "dev"])
          [mkAttrEvent "prod", mkAttrEvent "dev", mkAttrEvent "test"] ∧
      ((∀ p ∈ (["prod", "-dev", "dev"] : StringSet), hasExclusionPrefix p = true) →
        FilterByNamespaces.FilterEvents { Namespaces := ["prod", "-dev", "dev"] }
          [mkAttrEvent "prod", mkAttrEvent "dev", mkAttrEvent "test"] = [])) ∧
    IncludeExclude.ofPatternSet ["prod", "-dev", "dev"]
      = { includes := ["prod", "dev"], excludes := ["dev"] } ∧
    FilterByNamespaces.FilterEvents { Namespaces := ["prod", "-dev", "dev"] }
        [mkAttrEvent "prod", mkAttrEvent "dev", mkAttrEvent "test"] = [mkAttrEvent "prod"] ∧
    FilterByNamespaces.FilterEvents { Namespaces := ["-dev"] }
        [mkAttrEvent "prod", mkAttrEvent "dev", mkAttrEvent "test"] = [] :=
  ⟨by decide,
   (attribute_filters_eq_two_sets ["prod", "-dev", "dev"]
      [mkAttrEvent "prod", mkAttrEvent "dev", mkAttrEvent "test"]).2.2.1 (by decide),
   by decide, by decide, by decide⟩

/-! ## Commuting stages -/

theorem filter_eq_flatMap_replicate (p : Event → Prop) [DecidablePred p] (l : List Event) :
    l.filter (fun e => decide (p e))
      = l.flatMap (fun e => List.replicate (if p e then 1 else 0) e) := by
  induction l with
  | nil => rfl
  | cons x rest ih =>
    rw [List.flatMap_cons, ← ih]
    by_cases hx : p x
    · simp [hx, List.filter_cons]
    · simp [hx, List.filter_cons]

theorem replicate_flatMap_replicate (n : Event → Nat) (k : Nat) (e : Event) :
    (List.replicate k e).flatMap (fun x => List.replicate (n x) x)
      = List.replicate (k * n e) e := by
  induction k with
  | zero => simp
  | succ k ih =>
    rw [List.replicate_succ, List.flatMap_cons, ih, Nat.succ_mul, Nat.add_comm,
      List.replicate_add]

theorem flatMap_replicate_twice (m n : Event → Nat) (l : List Event) :
    (l.flatMap (fun e => List.replicate (m e) e)).flatMap (fun e => List.replicate (n e) e)
      = l.flatMap (fun e => List.replicate (m e * n e) e) := by
  induction l with
  | nil => rfl
  | cons x rest ih =>
    rw [List.flatMap_cons, List.flatMap_append, ih, replicate_flatMap_replicate,
      List.flatMap_cons]

/-- Every concrete filter lists each input event as many times as its multiplicity
says, in input order. -/
theorem ConcreteFilter.FilterEvents_eq_flatMap_replicate (F : ConcreteFilter)
    (S : List Event) :
    F.FilterEvents S = S.flatMap (fun e => List.replicate (F.multiplicity e) e) := by
  cases F with
  | warnings =>
    show FilterByWarnings.FilterEvents S = _
    rw [FilterByWarnings_eq_filter, filter_eq_flatMap_replicate]
    rfl
  | namespaces f =>
    show f.FilterEvents S = _
    rw [FilterByNamespaces_eq_AttributeMatcher]
    unfold AttributeMatcher
    rw [filter_eq_flatMap_replicate]
    rfl
  | names f =>
    show f.FilterEvents S = _
    rw [FilterByNames_eq_AttributeMatcher]
    unfold AttributeMatcher
    rw [filter_eq_flatMap_replicate]
    rfl
  | reasons f =>
    show f.FilterEvents S = _
    rw [FilterByReasons_eq_AttributeMatcher]
    unfold AttributeMatcher
    rw [filter_eq_flatMap_replicate]
    rfl
  | uids f =>
    show f.FilterEvents S = _
    rw [FilterByUIDs_eq_AttributeMatcher]
    unfold AttributeMatcher
    rw [filter_eq_flatMap_replicate]
    rfl
  | component f =>
    show f.FilterEvents S = _
    rw [FilterByComponent_eq_AttributeMatcher]
    unfold AttributeMatcher
    rw [filter_eq_flatMap_replicate]
    rfl
  | kind f =>
    show f.FilterEvents S = _
    rw [FilterByKind.FilterEvents_eq_replicate]
    rfl

/-- A chain of concrete filters lists each input event as many times as the product
of the multiplicities of its stages says. -/
theorem ConcreteFilter.chain_eq_flatMap_replicate (fs : List ConcreteFilter)
    (S : List Event) :
    EventFilters.FilterEvents (fs.map ConcreteFilter.FilterEvents) S
      = S.flatMap (fun e =>
          List.replicate ((fs.map (fun F => F.multiplicity e)).prod) e) := by
  induction fs generalizing S with
  | nil =>
    show S = _
    simp
  | cons F rest ih =>
    show EventFilters.FilterEvents (rest.map ConcreteFilter.FilterEvents) (F.FilterEvents S) = _
    rw [ih, ConcreteFilter.FilterEvents_eq_flatMap_replicate, flatMap_replicate_twice]
    simp only [List.map_cons, List.prod_cons]

/-- C19: stages of a chain commute. For any two concrete filters `F` and `G` (the
severity filter, the five attribute filters, `FilterByKind`) with any configurations
and every input, the chains `[F, G]` and `[G, F]` return the same output; hence the
output of a chain of concrete filters is the same for every order of its stages. -/
theorem ConcreteFilter.stages_commute :
    (∀ (F G : ConcreteFilter) (S : List Event),
      EventFilters.FilterEvents [F.FilterEvents, G.FilterEvents] S
        = EventFilters.FilterEvents [G.FilterEvents, F.FilterEvents] S) ∧
    (∀ (fs gs : List ConcreteFilter), fs.Perm gs → ∀ S : List Event,
      EventFilters.FilterEvents (fs.map ConcreteFilter.FilterEvents) S
        = EventFilters.FilterEvents (gs.map ConcreteFilter.FilterEvents) S) := by
  have hperm : ∀ (fs gs : List ConcreteFilter), fs.Perm gs → ∀ S : List Event,
      EventFilters.FilterEvents (fs.map ConcreteFilter.FilterEvents) S
        = EventFilters.FilterEvents (gs.map ConcreteFilter.FilterEvents) S := by
    intro fs gs h S
    rw [ConcreteFilter.chain_eq_flatMap_replicate, ConcreteFilter.chain_eq_flatMap_replicate]
    congr 1
    funext e
    rw [(h.map (fun F => F.multiplicity e)).prod_eq]
  exact ⟨fun F G S => hperm [F, G] [G, F] (List.Perm.swap _ _ _) S, hperm⟩

/-- C19 on the chain of `FilterByKind` with the entries `{apps, Deployment}` and
`{*, Deployment}` and the namespace filter `{"prod"}`: both orders of the two stages
return the same list, the `prod` deployment event twice. -/
theorem ConcreteFilter.stages_commute_witness :
    List.Perm
      [ConcreteFilter.kind
          { Kinds := [(⟨"apps", "Deployment"⟩, true), (⟨"*", "Deployment"⟩, true)] },
       ConcreteFilter.namespaces { Namespaces := ["prod"] }]
      [ConcreteFilter.namespaces { Namespaces := ["prod"] },
       ConcreteFilter.kind
          { Kinds := [(⟨"apps", "Deployment"⟩, true), (⟨"*", "Deployment"⟩, true)] }] ∧
    EventFilters.FilterEvents
        (List.map ConcreteFilter.FilterEvents
          [ConcreteFilter.kind
              { Kinds := [(⟨"apps", "Deployment"⟩, true), (⟨"*", "Deployment"⟩, true)] },
           ConcreteFilter.namespaces { Namespaces := ["prod"] }])
        [mkNsKindEvent "prod" "apps/v1" "Deployment", mkNsKindEvent "dev" "apps/v1" "Deployment",
         mkNsKindEvent "prod" "v1" "Pod"]
      = EventFilters.FilterEvents
        (List.map ConcreteFilter.FilterEvents
          [ConcreteFilter.namespaces { Namespaces := ["prod"] },
           ConcreteFilter.kind
              { Kinds := [(⟨"apps", "Deployment"⟩, true), (⟨"*", "Deployment"⟩, true)] }])
        [mkNsKindEvent "prod" "apps/v1" "Deployment", mkNsKindEvent "dev" "apps/v1" "Deployment",
         mkNsKindEvent "prod" "v1" "Pod"] ∧
    EventFilters.FilterEvents
        (List.map ConcreteFilter.FilterEvents
          [ConcreteFilter.namespaces { Namespaces := ["prod"] },
           ConcreteFilter.kind
              { Kinds := [(⟨"apps", "Deployment"⟩, true), (⟨"*", "Deployment"⟩, true)] }])
        [mkNsKindEvent "prod" "apps/v1" "Deployment", mkNsKindEvent "dev" "apps/v1" "Deployment",
         mkNsKindEvent "prod" "v1" "Pod"]
      = [mkNsKindEvent "prod" "apps/v1" "Deployment",
         mkNsKindEvent "prod" "apps/v1" "Deployment"] :=
  ⟨List.Perm.swap _ _ _,
   ConcreteFilter.stages_commute.2 _ _ (List.Perm.swap _ _ _)
     [mkNsKindEvent "prod" "apps/v1" "Deployment", mkNsKindEvent "dev" "apps/v1" "Deployment",
      mkNsKindEvent "prod" "v1" "Pod"],
   by decide⟩

/-! ## The group of an event -/

theorem ParseGroupVersion_group_of_split (a b : List Char) (ha : '/' ∉ a) (hb : '/' ∉ b) :
    (ParseGroupVersion (String.mk (a ++ '/' :: b))).1.Group = String.mk a := by
  have hcount : (a ++ '/' :: b).count '/' = 1 := by
    rw [List.count_append, List.count_cons_self, List.count_eq_zero.mpr ha,
      List.count_eq_zero.mpr hb]
  have htake : (a ++ '/' :: b).takeWhile (fun c => c != '/') = a := by
    rw [List.takeWhile_append_of_pos]
    · simp
    · intro c hc
      have : c ≠ '/' := fun h => ha (h ▸ hc)
      simpa using this
  unfold ParseGroupVersion
  by_cases h : (String.mk (a ++ '/' :: b)).data = [] ∨ String.mk (a ++ '/' :: b) = "/"
  · rw [if_pos h]
    rcases h with h | h
    · simp at h
    · have hd : a ++ '/' :: b = ['/'] := congrArg String.data h
      have ha2 : a = [] := by
        cases a with
        | nil => rfl
        | cons x rest =>
          simp only [List.cons_append, List.cons.injEq] at hd
          exact absurd (List.mem_cons_self _ _) (hd.1 ▸ ha)
      rw [ha2]
  · rw [if_neg h]
    simp only [hcount, htake]

theorem ParseGroupVersion_group_of_no_slash (s : String) (h : '/' ∉ s.data) :
    (ParseGroupVersion s).1.Group = "" := by
  unfold ParseGroupVersion
  split_ifs
  · rfl
  · rw [List.count_eq_zero.mpr h]

theorem ParseGroupVersion_group_of_many (s : String) (h : 2 ≤ s.data.count '/') :
    (ParseGroupVersion s).1.Group = "" := by
  unfold ParseGroupVersion
  split_ifs
  · rfl
  · obtain ⟨n, hn⟩ : ∃ n, s.data.count '/' = n + 2 := ⟨s.data.count '/' - 2, by omega⟩
    rw [hn]
    rfl

theorem ParseGroupVersion_group_of_error (s : String)
    (h : (ParseGroupVersion s).2 ≠ none) : (ParseGroupVersion s).1.Group = "" := by
  unfold ParseGroupVersion at h ⊢
  split_ifs at h ⊢ with hc
  · exact absurd rfl h
  · split at h
    · exact absurd rfl h
    · exact absurd rfl h
    · rfl

theorem eventGroupKind_mkKindEvent_malformed (k : String) :
    eventGroupKind (mkKindEvent "a/b/c" k) = ⟨"", k⟩ := rfl

/-- C15: the derivation of the `GroupKind` of an event. The kind is the kind of the
involved object; the group is the text before the `/` when the API version holds
exactly one `/`, and empty when it holds none or more than one, also when the parser
reports an error. An event with such a malformed API version is therefore matched
through the keys of group `""` and of group `*` only: `Kinds = {{"", k}: true}`
includes the event `a/b/c`, `k` and `Kinds = {{"a", k}: true}` excludes it. -/
theorem eventGroupKind_derivation :
    (∀ e : Event, (eventGroupKind e).Kind = e.InvolvedObject.Kind) ∧
    (∀ (e : Event) (a b : List Char), '/' ∉ a → '/' ∉ b →
      e.InvolvedObject.APIVersion = String.mk (a ++ '/' :: b) →
      (eventGroupKind e).Group = String.mk a) ∧
    (∀ e : Event, '/' ∉ e.InvolvedObject.APIVersion.data → (eventGroupKind e).Group = "") ∧
    (∀ e : Event, 2 ≤ e.InvolvedObject.APIVersion.data.count '/' →
      (eventGroupKind e).Group = "") ∧
    (∀ e : Event, (ParseGroupVersion e.InvolvedObject.APIVersion).2 ≠ none →
      (eventGroupKind e).Group = "") ∧
    (∀ (f : FilterByKind) (events : List Event) (e : Event),
      2 ≤ e.InvolvedObject.APIVersion.data.count '/' →
      (e ∈ f.FilterEvents events ↔
        e ∈ events ∧ f.Kinds.index ⟨"", "-" ++ e.InvolvedObject.Kind⟩ = false ∧
        (f.Kinds.index ⟨"", e.InvolvedObject.Kind⟩ = true ∨
          (((⟨"*", "-" ++ e.InvolvedObject.Kind⟩ : GroupKind) ∉ f.Kinds.keys ∧
            (⟨"", "-*"⟩ : GroupKind) ∉ f.Kinds.keys) ∧
           ((⟨"*", "*"⟩ : GroupKind) ∈ f.Kinds.keys ∨
            (⟨"*", e.InvolvedObject.Kind⟩ : GroupKind) ∈ f.Kinds.keys ∨
            (⟨"", "*"⟩ : GroupKind) ∈ f.Kinds.keys))))) ∧
    (∀ k : String, mkKindEvent "a/b/c" k ∈
      FilterByKind.FilterEvents { Kinds := [(⟨"", k⟩, true)] } [mkKindEvent "a/b/c" k]) ∧
    (∀ k : String,
      FilterByKind.FilterEvents { Kinds := [(⟨"a", k⟩, true)] } [mkKindEvent "a/b/c" k] = []) := by
  refine ⟨fun _ => rfl, ?_, ?_, ?_, ?_, ?_, ?_, ?_⟩
  · intro e a b ha hb hs
    show (ParseGroupVersion e.InvolvedObject.APIVersion).1.Group = _
    rw [hs]
    exact ParseGroupVersion_group_of_split a b ha hb
  · intro e h
    exact ParseGroupVersion_group_of_no_slash _ h
  · intro e h
    exact ParseGroupVersion_group_of_many _ h
  · intro e h
    exact ParseGroupVersion_group_of_error _ h
  · intro f events e h
    have hg : (eventGroupKind e).Group = "" := ParseGroupVersion_group_of_many _ h
    have hgk : eventGroupKind e = ⟨"", e.InvolvedObject.Kind⟩ := by
      rw [eventGroupKind_eq e, hg]
    rw [FilterByKind.mem_FilterEvents, hgk]
  · intro k
    rw [FilterByKind.mem_FilterEvents, eventGroupKind_mkKindEvent_malformed]
    refine ⟨List.mem_singleton_self _, ?_, Or.inl ?_⟩
    · have hne : k ≠ "-" ++ k := fun h => dash_append_ne k h.symm
      simp [KindMap.index, hne]
    · simp [KindMap.index]
  · intro k
    apply List.eq_nil_iff_forall_not_mem.mpr
    intro x hx
    rw [FilterByKind.mem_FilterEvents] at hx
    obtain ⟨hmem, _, hrest⟩ := hx
    rw [List.mem_singleton] at hmem
    subst hmem
    rw [eventGroupKind_mkKindEvent_malformed] at hrest
    have hne : ¬ ("a" : String) = "" := by decide
    have hne2 : ¬ ("*" : String) = "a" := by decide
    have hne3 : ¬ ("" : String) = "a" := by decide
    simp [KindMap.index, KindMap.keys, hne, hne2, hne3] at hrest

/-- C15 on the API version `apps/v1`: it is `apps`, `/`, `v1` with no `/` in either
part, and the derived group is `apps`; the API version `v1` gives the empty group and
so does the malformed `a/b/c`, which the key `{"", Pod}` includes and the key
`{"a", Pod}` does not. -/
theorem eventGroupKind_derivation_witness :
    ('/' ∉ ['a', 'p', 'p', 's'] ∧ '/' ∉ ['v', '1'] ∧
      (mkKindEvent "apps/v1" "Deployment").InvolvedObject.APIVersion
        = String.mk (['a', 'p', 'p', 's'] ++ '/' :: ['v', '1'])) ∧
    (eventGroupKind (mkKindEvent "apps/v1" "Deployment")).Group
      = String.mk ['a', 'p', 'p', 's'] ∧
    eventGroupKind (mkKindEvent "apps/v1" "Deployment") = ⟨"apps", "Deployment"⟩ ∧
    eventGroupKind (mkKindEvent "v1" "Pod") = ⟨"", "Pod"⟩ ∧
    eventGroupKind (mkKindEvent "a/b/c" "Pod") = ⟨"", "Pod"⟩ ∧
    FilterByKind.FilterEvents { Kinds := [(⟨"", "Pod"⟩, true)] } [mkKindEvent "a/b/c" "Pod"]
      = [mkKindEvent "a/b/c" "Pod"] ∧
    FilterByKind.FilterEvents { Kinds := [(⟨"a", "Pod"⟩, true)] } [mkKindEvent "a/b/c" "Pod"]
      = [] :=
  ⟨⟨by decide, by decide, by decide⟩,
   eventGroupKind_derivation.2.1 (mkKindEvent "apps/v1" "Deployment")
     ['a', 'p', 'p', 's'] ['v', '1'] (by decide) (by decide) (by decide),
   by decide, by decide, by decide, by decide, by decide⟩

/-! ## The boolean flag of an entry -/

theorem dash_append_ne_star (k : String) : "-" ++ k ≠ "*" := by
  intro h
  have hd := congrArg String.data h
  rw [String.data_append] at hd
  have hh : some '-' = some '*' := congrArg List.head? hd
  exact absurd hh (by decide)

theorem flatMap_replicate_one (S : List Event) (n : Event → Nat) (h : ∀ e, n e = 1) :
    S.flatMap (fun e => List.replicate (n e) e) = S := by
  induction S with
  | nil => rfl
  | cons x rest ih => rw [List.flatMap_cons, ih, h x]; rfl

theorem flatMap_replicate_zero (S : List Event) (n : Event → Nat) (h : ∀ e, n e = 0) :
    S.flatMap (fun e => List.replicate (n e) e) = [] := by
  induction S with
  | nil => rfl
  | cons x rest ih => rw [List.flatMap_cons, ih, h x]; rfl

/-- The wildcard entry `{"*", "*"}` with the value `false` selects every event, each
exactly once: the wildcard loop looks at the key only. -/
theorem FilterByKind.star_star_false_identity (S : List Event) :
    FilterByKind.FilterEvents { Kinds := [(⟨"*", "*"⟩, false)] } S = S := by
  rw [FilterByKind.FilterEvents_eq_replicate]
  apply flatMap_replicate_one
  intro e
  have h1 : ¬ ("*" : String) = "-" ++ (eventGroupKind e).Kind :=
    fun h => dash_append_ne_star _ h.symm
  have h2 : ¬ ("-*" : String) = "*" := by decide
  simp [FilterByKind.multiplicity, KindMap.index, KindMap.keys, h1, h2,
    dash_append_ne_star]

/-- An exact entry `{g, k}` with the value `false`, `g` and `k` other than `*`, selects
nothing: the exact lookup reads the flag. -/
theorem FilterByKind.exact_false_selects_nothing (g k : String) (hg : g ≠ "*") (hk : k ≠ "*")
    (S : List Event) :
    FilterByKind.FilterEvents { Kinds := [(⟨g, k⟩, false)] } S = [] := by
  rw [FilterByKind.FilterEvents_eq_replicate]
  apply flatMap_replicate_zero
  intro e
  have hg2 : ¬ "*" = g := fun h => hg h.symm
  have hk2 : ¬ "*" = k := fun h => hk h.symm
  simp [FilterByKind.multiplicity, KindMap.index, KindMap.keys, hg2, hk2]

/-- C20, the code at the failing input: on the single event `*/v1`, `*` the map
`{{"*", "*"}: false}` returns the input unchanged, while `{{"*", "*"}: true}` returns
the event twice, once through the exact lookup and once through the wildcard loop. -/
theorem FilterByKind.star_star_true_emits_twice :
    eventGroupKind (mkKindEvent "*/v1" "*") = ⟨"*", "*"⟩ ∧
    FilterByKind.FilterEvents { Kinds := [(⟨"*", "*"⟩, false)] } [mkKindEvent "*/v1" "*"]
      = [mkKindEvent "*/v1" "*"] ∧
    FilterByKind.FilterEvents { Kinds := [(⟨"*", "*"⟩, true)] } [mkKindEvent "*/v1" "*"]
      = [mkKindEvent "*/v1" "*", mkKindEvent "*/v1" "*"] ∧
    FilterByKind.FilterEvents { Kinds := [(⟨"*", "*"⟩, true)] } [mkKindEvent "*/v1" "*"]
      ≠ [mkKindEvent "*/v1" "*"] := by
  decide

/-! ## Sublists -/

/-- The attribute matcher returns a sublist of its input. -/
theorem AttributeMatcher_sublist (attr : Event → String) (P : StringSet) (S : List Event) :
    List.Sublist (AttributeMatcher attr P S) S := by
  unfold AttributeMatcher
  exact List.filter_sublist S

/-- The severity filter and the five attribute filters return a sublist of their
input, so they keep the order and add no duplicate. -/
theorem severity_and_attribute_filters_sublist (P : StringSet) (S : List Event) :
    List.Sublist (FilterByWarnings.FilterEvents S) S ∧
    List.Sublist (FilterByNamespaces.FilterEvents { Namespaces := P } S) S ∧
    List.Sublist (FilterByNames.FilterEvents { Names := P } S) S ∧
    List.Sublist (FilterByReasons.FilterEvents { Reasons := P } S) S ∧
    List.Sublist (FilterByUIDs.FilterEvents { UIDs := P } S) S ∧
    List.Sublist (FilterByComponent.FilterEvents { Components := P } S) S := by
  refine ⟨?_, ?_, ?_, ?_, ?_, ?_⟩
  · rw [FilterByWarnings_eq_filter]; exact List.filter_sublist S
  · rw [FilterByNamespaces_eq_AttributeMatcher]; exact AttributeMatcher_sublist _ _ S
  · rw [FilterByNames_eq_AttributeMatcher]; exact AttributeMatcher_sublist _ _ S
  · rw [FilterByReasons_eq_AttributeMatcher]; exact AttributeMatcher_sublist _ _ S
  · rw [FilterByUIDs_eq_AttributeMatcher]; exact AttributeMatcher_sublist _ _ S
  · rw [FilterByComponent_eq_AttributeMatcher]; exact AttributeMatcher_sublist _ _ S

end Events
